import Mathlib

/-!
# Verification of the PIIGuardian detection engine

Shallow embedding of the PIIGuardian personal-data detection pipeline
(`src/detector.py`, `src/validators.py`, `src/patterns.py`) and proofs of the
specification claims about it.

Modelling conventions:
* Python strings are Lean `String`s; character-level operations are done on
  `List Char` so that everything reduces in the kernel.
* Python floats (confidences, thresholds) are modelled as exact rationals `ℚ`.
  Every confidence constant appearing in the source is a short decimal literal,
  so rational arithmetic mirrors the source's intent exactly.
* Outputs of the Python `re` module (the regex scanning layer) are treated as
  inputs of the pipeline: each stage that consumes `re.finditer` results takes
  the corresponding match list as an explicit argument.  All post-regex logic
  (deduplication, value checks, digit counting, fusion, validation,
  thresholds) is embedded faithfully from the source.
* Entities carry the source's field names; Python's `end` field is called
  `stop` here because `end` is a Lean keyword.
-/

set_option maxRecDepth 10000

namespace PIIGuardian

/-! ## String helpers mirroring Python `str` operations -/

/-- Python `re.sub(r'\D', '', s)`: keep only the (ASCII) digit characters. -/
def cleanDigits (s : String) : String :=
  String.mk (s.toList.filter Char.isDigit)

/-- Python `sum(c.isdigit() for c in s)`. -/
def digitCount (s : String) : Nat :=
  (s.toList.filter Char.isDigit).length

/-- Python `s.strip()` (whitespace from both ends). -/
def pyStrip (s : String) : String :=
  String.mk (((s.toList.dropWhile Char.isWhitespace).reverse.dropWhile
    Char.isWhitespace).reverse)

/-- Python `s.lower()` (ASCII case folding; all inputs of interest are ASCII). -/
def pyLower (s : String) : String :=
  String.mk (s.toList.map Char.toLower)

/-- Python `s.split()`: split on whitespace runs, dropping empty pieces. -/
def pySplit (s : String) : List String :=
  ((s.toList.splitOnP Char.isWhitespace).map String.mk).filter (fun w => w ≠ "")

/-- Value of a digit character. -/
def digitVal (c : Char) : Nat := c.toNat - 48

/-- The digit values of a string, in order (Python `[int(d) for d in s]`). -/
def digitsOf (s : String) : List Nat := s.toList.map digitVal

/-- Exact rational multiplication, written through `mkRat` so that the kernel
can evaluate it on concrete inputs.  `qmul_eq_mul` below shows it is ordinary
multiplication on `ℚ`. -/
def qmul (a b : ℚ) : ℚ := mkRat (a.num * b.num) (a.den * b.den)

/-- Fuel-driven removal of every (non-overlapping, left-to-right) occurrence of
`pat` from `s`, mirroring Python `s.replace(pat, '')`.  The fuel argument makes
the recursion structural so that it reduces in the kernel. -/
def removeSubAux (pat : List Char) : Nat → List Char → List Char
  | 0, s => s
  | _ + 1, [] => []
  | fuel + 1, c :: cs =>
    if pat.isPrefixOf (c :: cs) then
      removeSubAux pat fuel ((c :: cs).drop pat.length)
    else
      c :: removeSubAux pat fuel cs

/-- Python `t.replace('_CONTEXTUAL', '')`: the base type of an entity type. -/
def baseTypeOf (t : String) : String :=
  String.mk (removeSubAux "_CONTEXTUAL".toList t.toList.length t.toList)

/-! ## `validators.py` -/

/-- `ValidationResult` dataclass of `validators.py`. -/
structure ValidationResult where
  is_valid : Bool
  confidence : ℚ
  message : String
  cleaned_value : Option String := none
  deriving DecidableEq

/-- `CPFValidator.INVALID_CPFS`. -/
def INVALID_CPFS : List String :=
  ["00000000000", "11111111111", "22222222222", "33333333333",
   "44444444444", "55555555555", "66666666666", "77777777777",
   "88888888888", "99999999999"]

/-- Python `s.isdigit()` for an ASCII string: nonempty and all digits. -/
def pyIsDigitStr (s : String) : Bool :=
  s.toList ≠ [] && s.toList.all Char.isDigit

/-- `CPFValidator.validate`, split on the already-cleaned value. -/
def cpfValidateClean (cleaned : String) : ValidationResult :=
  if cleaned.toList.length ≠ 11 then
    { is_valid := false, confidence := 0,
      message := "CPF deve ter 11 dígitos, encontrado: " ++
        toString cleaned.toList.length }
  else if ¬ pyIsDigitStr cleaned then
    { is_valid := false, confidence := 0,
      message := "CPF deve conter apenas dígitos" }
  else if cleaned ∈ INVALID_CPFS then
    { is_valid := false, confidence := 0,
      message := "CPF com sequência inválida (dígitos repetidos)" }
  else
    let digits := digitsOf cleaned
    let sum_first := (List.zipWith (· * ·) (digits.take 9)
      [10, 9, 8, 7, 6, 5, 4, 3, 2]).sum
    let expected_first := sum_first * 10 % 11 % 10
    if expected_first ≠ digits.getD 9 0 then
      { is_valid := false, confidence := (mkRat 3 10),
        message := "Primeiro dígito verificador inválido: esperado " ++
          toString expected_first ++ ", encontrado " ++ toString (digits.getD 9 0),
        cleaned_value := some cleaned }
    else
      let sum_second := (List.zipWith (· * ·) (digits.take 10)
        [11, 10, 9, 8, 7, 6, 5, 4, 3, 2]).sum
      let expected_second := sum_second * 10 % 11 % 10
      if expected_second ≠ digits.getD 10 0 then
        { is_valid := false, confidence := (mkRat 3 10),
          message := "Segundo dígito verificador inválido: esperado " ++
            toString expected_second ++ ", encontrado " ++ toString (digits.getD 10 0),
          cleaned_value := some cleaned }
      else
        { is_valid := true, confidence := (mkRat 98 100),
          message := "CPF válido - dígitos verificadores conferem",
          cleaned_value := some cleaned }

/-- `CPFValidator.validate` (`validators.py`, lines 71-138). -/
def cpfValidate (cpf : String) : ValidationResult :=
  cpfValidateClean (cleanDigits cpf)

/-- `CNPJValidator.WEIGHTS_FIRST`. -/
def WEIGHTS_FIRST : List Nat := [5, 4, 3, 2, 9, 8, 7, 6, 5, 4, 3, 2]

/-- `CNPJValidator.WEIGHTS_SECOND`. -/
def WEIGHTS_SECOND : List Nat := [6, 5, 4, 3, 2, 9, 8, 7, 6, 5, 4, 3, 2]

/-- `CNPJValidator.INVALID_CNPJS`. -/
def INVALID_CNPJS : List String :=
  ["00000000000000", "11111111111111", "22222222222222",
   "33333333333333", "44444444444444", "55555555555555",
   "66666666666666", "77777777777777", "88888888888888",
   "99999999999999"]

/-- The check-digit computation of `CNPJValidator.validate`
(`validators.py`, lines 243-244 and 256-257):
`remainder = sum % 11; 0 if remainder < 2 else 11 - remainder`. -/
def cnpjCheckDigit (sum : Nat) : Nat :=
  let remainder := sum % 11
  if remainder < 2 then 0 else 11 - remainder

/-- `CNPJValidator.validate`, split on the already-cleaned value. -/
def cnpjValidateClean (cleaned : String) : ValidationResult :=
  if cleaned.toList.length ≠ 14 then
    { is_valid := false, confidence := 0,
      message := "CNPJ deve ter 14 dígitos, encontrado: " ++
        toString cleaned.toList.length }
  else if ¬ pyIsDigitStr cleaned then
    { is_valid := false, confidence := 0,
      message := "CNPJ deve conter apenas dígitos" }
  else if cleaned ∈ INVALID_CNPJS then
    { is_valid := false, confidence := 0,
      message := "CNPJ com sequência inválida (dígitos repetidos)" }
  else
    let digits := digitsOf cleaned
    let sum_first := (List.zipWith (· * ·) (digits.take 12) WEIGHTS_FIRST).sum
    let expected_first := cnpjCheckDigit sum_first
    if expected_first ≠ digits.getD 12 0 then
      { is_valid := false, confidence := (mkRat 3 10),
        message := "Primeiro dígito verificador inválido",
        cleaned_value := some cleaned }
    else
      let sum_second := (List.zipWith (· * ·) (digits.take 13) WEIGHTS_SECOND).sum
      let expected_second := cnpjCheckDigit sum_second
      if expected_second ≠ digits.getD 13 0 then
        { is_valid := false, confidence := (mkRat 3 10),
          message := "Segundo dígito verificador inválido",
          cleaned_value := some cleaned }
      else
        { is_valid := true, confidence := (mkRat 98 100),
          message := "CNPJ válido - dígitos verificadores conferem",
          cleaned_value := some cleaned }

/-- `CNPJValidator.validate` (`validators.py`, lines 203-272). -/
def cnpjValidate (cnpj : String) : ValidationResult :=
  cnpjValidateClean (cleanDigits cnpj)

/-- `PhoneValidator.VALID_DDDS`. -/
def VALID_DDDS : List Nat :=
  [11, 12, 13, 14, 15, 16, 17, 18, 19,
   21, 22, 24, 27, 28,
   31, 32, 33, 34, 35, 37, 38,
   41, 42, 43, 44, 45, 46, 47, 48, 49,
   51, 53, 54, 55,
   61, 62, 63, 64, 65, 66, 67, 68, 69,
   71, 73, 74, 75, 77, 79,
   81, 82, 83, 84, 85, 86, 87, 88, 89,
   91, 92, 93, 94, 95, 96, 97, 98, 99]

/-- Interpret a list of digit characters as a number
(Python `int` on an all-digit string). -/
def natOfDigitChars (cs : List Char) : Nat :=
  cs.foldl (fun acc c => acc * 10 + digitVal c) 0

/-- The cleaning steps of `PhoneValidator.validate` (`validators.py`, lines
323-327): keep digits, then strip a leading `55` country code when more than
11 digits remain. -/
def phoneCleanAdjusted (phone : String) : List Char :=
  let cleaned0 := (cleanDigits phone).toList
  if cleaned0.take 2 = ['5', '5'] ∧ cleaned0.length > 11 then
    cleaned0.drop 2
  else cleaned0

/-- `PhoneValidator.validate` (`validators.py`, lines 313-375). -/
def phoneValidate (phone : String) : ValidationResult :=
  let cleaned := phoneCleanAdjusted phone
  if ¬ (cleaned.length = 10 ∨ cleaned.length = 11) then
    { is_valid := false, confidence := 0,
      message := "Telefone deve ter 10 ou 11 dígitos, encontrado: " ++
        toString cleaned.length }
  else
    let ddd := natOfDigitChars (cleaned.take 2)
    if ddd ∉ VALID_DDDS then
      { is_valid := false, confidence := (mkRat 4 10),
        message := "DDD " ++ toString ddd ++ " não é válido no Brasil",
        cleaned_value := some (String.mk cleaned) }
    else if cleaned.length = 11 ∧ cleaned.getD 2 ' ' ≠ '9' then
      { is_valid := false, confidence := (mkRat 5 10),
        message := "Celular com 11 dígitos deve ter terceiro dígito = 9",
        cleaned_value := some (String.mk cleaned) }
    else if (cleaned.drop 2).dedup.length = 1 then
      { is_valid := false, confidence := (mkRat 2 10),
        message := "Telefone com dígitos repetidos",
        cleaned_value := some (String.mk cleaned) }
    else
      let phone_type := if cleaned.length = 11 then "celular" else "fixo"
      { is_valid := true, confidence := (mkRat 9 10),
        message := "Telefone " ++ phone_type ++ " válido - DDD " ++ toString ddd,
        cleaned_value := some (String.mk cleaned) }

/-- `EmailValidator.COMMON_TLDS`. -/
def COMMON_TLDS : List String :=
  ["com", "com.br", "org", "org.br", "net", "net.br", "gov", "gov.br",
   "edu", "edu.br", "mil", "mil.br", "info", "biz", "io", "co",
   "br", "pt", "us", "uk", "de", "fr", "es", "it", "jp", "cn"]

/-- A character of the class `[a-zA-Z0-9._%+-]` (local part of an email). -/
def isLocalChar (c : Char) : Bool :=
  c.isAlphanum || c = '.' || c = '_' || c = '%' || c = '+' || c = '-'

/-- A character of the class `[a-zA-Z0-9.-]` (domain part of an email). -/
def isDomainChar (c : Char) : Bool :=
  c.isAlphanum || c = '.' || c = '-'

/-- The maximal all-alpha suffix after the last dot of a domain
(what `domain.split('.')[-1]` yields for a matched domain). -/
def lastDotComponent (cs : List Char) : List Char :=
  (cs.reverse.takeWhile (fun c => c ≠ '.')).reverse

/-- `EmailValidator.EMAIL_PATTERN` as a decision procedure:
`^[a-zA-Z0-9._%+-]+@[a-zA-Z0-9.-]+\.[a-zA-Z]{2,}$`.
Since `@` belongs to neither character class, the local part of any match is
exactly the maximal leading run of local characters, and since the trailing
`[a-zA-Z]{2,}` group contains no dot, the `\.` of any match is the last dot of
the domain part.  So the regex matches exactly the strings accepted below. -/
def emailPatternMatch (s : String) : Bool :=
  let cs := s.toList
  let localPart := cs.takeWhile isLocalChar
  match cs.drop localPart.length with
  | [] => false
  | c :: rest =>
    let tld := lastDotComponent rest
    c = '@' && decide (localPart ≠ []) && rest.all isDomainChar &&
      rest.contains '.' && tld.all Char.isAlpha &&
      decide (2 ≤ tld.length) && decide (tld.length + 2 ≤ rest.length)

/-- The part of an email before the last `@`
(first component of Python `email.rsplit('@', 1)`). -/
def localOfEmail (cs : List Char) : List Char :=
  (cs.reverse.dropWhile (fun c => c ≠ '@')).reverse.dropLast

/-- The part of an email after the last `@`
(second component of Python `email.rsplit('@', 1)`). -/
def domainOfEmail (cs : List Char) : List Char :=
  (cs.reverse.takeWhile (fun c => c ≠ '@')).reverse

/-- `EmailValidator.validate` (`validators.py`, lines 400-463). -/
def emailValidate (email : String) : ValidationResult :=
  let e := pyLower (pyStrip email)
  if ¬ emailPatternMatch e then
    { is_valid := false, confidence := 0,
      message := "Formato de email inválido" }
  else if ¬ ('@' ∈ e.toList) then
    -- the `except ValueError` branch of the source; unreachable after a match
    { is_valid := false, confidence := 0,
      message := "Email deve conter exatamente um @" }
  else
    let localPart := localOfEmail e.toList
    let domain := domainOfEmail e.toList
    if localPart.length > 64 then
      { is_valid := false, confidence := (mkRat 3 10),
        message := "Parte local do email muito longa (máximo 64 caracteres)" }
    else if domain.length > 255 then
      { is_valid := false, confidence := (mkRat 3 10),
        message := "Domínio do email muito longo (máximo 255 caracteres)" }
    else if (lastDotComponent domain).length < 2 then
      { is_valid := false, confidence := (mkRat 3 10),
        message := "TLD do email inválido" }
    else
      let conf : ℚ :=
        if COMMON_TLDS.any
            (fun t => (String.mk domain).endsWith ("." ++ t)) then
          (mkRat 95 100)
        else (mkRat 85 100)
      { is_valid := true, confidence := conf,
        message := "Email com formato válido",
        cleaned_value := some (String.mk e.toList) }

/-- The `regions` lookup of `CEPValidator.validate`
(`validators.py`, lines 534-548): first digit to geographic band, with
"Região desconhecida" as the dict-get fallback. -/
def cepRegion (first_digit : Nat) : String :=
  if first_digit = 0 then "São Paulo - Capital"
  else if first_digit = 1 then "São Paulo - Interior"
  else if first_digit = 2 then "Rio de Janeiro / Espírito Santo"
  else if first_digit = 3 then "Minas Gerais"
  else if first_digit = 4 then "Bahia / Sergipe"
  else if first_digit = 5 then "Nordeste (PE, AL, PB, RN)"
  else if first_digit = 6 then "Norte/Nordeste (CE, PI, MA, PA, AM, AC, AP, RR)"
  else if first_digit = 7 then "Centro-Oeste (GO, TO, MT, MS, DF)"
  else if first_digit = 8 then "Sul (PR, SC)"
  else if first_digit = 9 then "Rio Grande do Sul"
  else "Região desconhecida"

/-- `CEPValidator.validate` (`validators.py`, lines 497-555). -/
def cepValidate (cep : String) : ValidationResult :=
  let cleaned := (cleanDigits cep).toList
  if cleaned.length ≠ 8 then
    { is_valid := false, confidence := 0,
      message := "CEP deve ter 8 dígitos, encontrado: " ++ toString cleaned.length }
  else if ¬ pyIsDigitStr (String.mk cleaned) then
    { is_valid := false, confidence := 0,
      message := "CEP deve conter apenas dígitos" }
  else if cleaned.dedup.length = 1 then
    { is_valid := false, confidence := 0,
      message := "CEP com dígitos repetidos" }
  else
    let first_digit := digitVal (cleaned.getD 0 '0')
    { is_valid := true, confidence := (mkRat 85 100),
      message := "CEP válido - Região: " ++ cepRegion first_digit,
      cleaned_value := some (String.mk cleaned) }

/-! ## `patterns.py` -/

/-- A candidate match dictionary as produced by `BrazilianPatterns.find_all`
before deduplication.  The regex scan that produces these is the Python `re`
library; this embedding takes the scanned list as input.  `stop` is the
source's `end` field. -/
structure PMatch where
  type : String
  value : String
  start : Nat
  stop : Nat
  confidence : ℚ
  description : String
  requires_validation : Bool
  priority : Nat
  deriving DecidableEq

/-- `BrazilianPatterns._has_overlap`: `[start, end)` intervals intersect. -/
def hasOverlapM (m1 m2 : PMatch) : Bool :=
  ¬ (m1.stop ≤ m2.start ∨ m2.stop ≤ m1.start)

/-- The sort order used by `_deduplicate_matches`:
`sorted(matches, key=lambda x: (x['start'], -x['confidence']))`.
`leKey a b` holds when `a` sorts before `b` or ties with it. -/
def leKey (a b : PMatch) : Bool :=
  a.start < b.start ∨ (a.start = b.start ∧ b.confidence ≤ a.confidence)

/-- Stable insertion used to model Python's stable `sorted`. -/
def stInsert (le : PMatch → PMatch → Bool) (x : PMatch) :
    List PMatch → List PMatch
  | [] => [x]
  | y :: ys => if le x y then x :: y :: ys else y :: stInsert le x ys

/-- Stable insertion sort.  Python's `sorted` is stable, and a stable sort's
output is uniquely determined by the (total pre)order on keys, so this is
extensionally the same list `sorted` produces. -/
def stSort (le : PMatch → PMatch → Bool) : List PMatch → List PMatch
  | [] => []
  | x :: xs => stInsert le x (stSort le xs)

/-- `BrazilianPatterns._deduplicate_matches` (`patterns.py`, lines 428-452):
sort by `(start, -confidence)`, then greedily keep a match only if it does not
overlap an already-kept match. -/
def deduplicateMatches (ms : List PMatch) : List PMatch :=
  (stSort leKey ms).foldl
    (fun result m =>
      if result.any (fun existing => hasOverlapM m existing) then result
      else result ++ [m])
    []

/-- `BrazilianPatterns.find_all` (`patterns.py`, lines 367-396), with the raw
per-pattern regex scan results passed in (in the source's iteration order:
pattern types in catalog insertion order, patterns in list order, matches in
text order). -/
def findAll (catalogRaw : List PMatch) : List PMatch :=
  deduplicateMatches catalogRaw

/-- A raw contextual-regex hit for `ContextualPatterns.find_contextual`:
`pii_type` is the group key (`CPF`, `TELEFONE`, `EMAIL`, `ENDERECO`, `NOME`),
`value`/`start`/`stop` are the text and span of capture group 1 (every
compiled contextual pattern has a capture group), `full` is the whole match. -/
structure CtxRaw where
  pii_type : String
  value : String
  start : Nat
  stop : Nat
  confidence : ℚ
  full : String
  deriving DecidableEq

/-- A match dictionary produced by `ContextualPatterns.find_contextual`. -/
structure CtxMatch where
  type : String
  value : String
  start : Nat
  stop : Nat
  confidence : ℚ
  full_context : String
  deriving DecidableEq

/-- `ContextualPatterns.find_contextual` (`patterns.py`, lines 525-553):
suffix the type with `_CONTEXTUAL`, strip the captured value, keep the
captured group's span. -/
def findContextual (ctxRaw : List CtxRaw) : List CtxMatch :=
  ctxRaw.map fun m =>
    { type := m.pii_type ++ "_CONTEXTUAL"
      value := pyStrip m.value
      start := m.start
      stop := m.stop
      confidence := m.confidence
      full_context := m.full }

/-! ## `detector.py`: data model -/

/-- `DetectionMode` enum. -/
inductive DetectionMode where
  | strict
  | balanced
  | precise
  deriving DecidableEq

/-- A per-type threshold dictionary: association list preserving Python dict
insertion order. -/
abbrev ThDict := List (String × ℚ)

/-- Python `d.get(k)` on a string-keyed dict. -/
def dictGet (d : ThDict) (k : String) : Option ℚ :=
  match d with
  | [] => none
  | (k', v) :: rest => if k = k' then some v else dictGet rest k

/-- The default `thresholds` of `DetectionConfig`. -/
def defaultThresholds : ThDict :=
  [("CPF", (mkRat 3 10)), ("CNPJ", (mkRat 4 10)), ("TELEFONE", (mkRat 4 10)), ("CELULAR", (mkRat 4 10)),
   ("EMAIL", (mkRat 7 10)), ("CEP", (mkRat 5 10)), ("NOME", (mkRat 6 10)), ("RG", (mkRat 5 10)),
   ("DATA_NASCIMENTO", (mkRat 6 10)), ("DEFAULT", (mkRat 5 10))]

/-- `DetectionConfig` dataclass (`detector.py`, lines 63-84). -/
structure DetectionConfig where
  mode : DetectionMode := .balanced
  use_bert : Bool := true
  use_contextual : Bool := true
  validate_documents : Bool := true
  min_confidence : ℚ := (mkRat 5 10)
  thresholds : ThDict := defaultThresholds
  deriving DecidableEq

/-- `PIIGuardian._get_config_for_mode` (`detector.py`, lines 219-242). -/
def getConfigForMode (mode : DetectionMode) : DetectionConfig :=
  match mode with
  | .strict =>
    { mode := .strict
      min_confidence := (mkRat 3 10)
      thresholds :=
        [("CPF", (mkRat 2 10)), ("CNPJ", (mkRat 3 10)), ("TELEFONE", (mkRat 3 10)),
         ("CELULAR", (mkRat 3 10)), ("EMAIL", (mkRat 5 10)), ("CEP", (mkRat 4 10)),
         ("NOME", (mkRat 4 10)), ("DEFAULT", (mkRat 3 10))] }
  | .precise =>
    { mode := .precise
      min_confidence := (mkRat 7 10)
      thresholds :=
        [("CPF", (mkRat 7 10)), ("CNPJ", (mkRat 7 10)), ("TELEFONE", (mkRat 7 10)),
         ("CELULAR", (mkRat 7 10)), ("EMAIL", (mkRat 8 10)), ("CEP", (mkRat 7 10)),
         ("NOME", (mkRat 8 10)), ("DEFAULT", (mkRat 7 10))] }
  | .balanced => { mode := .balanced }

/-- `Entity` dataclass (`detector.py`, lines 87-112).  `stop` is the source's
`end` field. -/
structure Entity where
  type : String
  value : String
  start : Nat
  stop : Nat
  confidence : ℚ
  validation_status : String := "not_validated"
  validation_message : String := ""
  detection_method : String := "regex"
  explanation : String := ""
  deriving DecidableEq

/-- `PIIGuardian._has_overlap` (`detector.py`, lines 695-697). -/
def hasOverlapE (entity1 entity2 : Entity) : Bool :=
  ¬ (entity1.stop ≤ entity2.start ∨ entity2.stop ≤ entity1.start)

/-- `PIIGuardian._has_overlap_dict` (`detector.py`, lines 699-701). -/
def hasOverlapDict (m : CtxMatch) (e : Entity) : Bool :=
  ¬ (m.stop ≤ e.start ∨ e.stop ≤ m.start)

/-- `PIIGuardian.BRAZILIAN_NAMES` (`detector.py`, lines 157-170). -/
def BRAZILIAN_NAMES : List String :=
  ["silva", "santos", "oliveira", "souza", "rodrigues", "ferreira",
   "alves", "pereira", "lima", "gomes", "costa", "ribeiro", "martins",
   "carvalho", "almeida", "lopes", "soares", "fernandes", "vieira",
   "barbosa", "rocha", "dias", "nascimento", "andrade", "moreira",
   "nunes", "marques", "machado", "mendes", "freitas", "cardoso",
   "ramos", "gonçalves", "santana", "teixeira", "moura", "araújo",
   "maria", "josé", "ana", "joão", "paulo", "carlos", "antonio",
   "francisco", "pedro", "lucas", "luiz", "marcos", "gabriel",
   "rafael", "daniel", "fernanda", "juliana", "camila", "amanda",
   "patricia", "aline", "bruna", "jessica", "leticia", "larissa"]

/-! ## `detector.py`: pipeline stages -/

/-- A raw regex match (value and span) from one of the hardwired supplementary
expressions of `detector.py` (`re.finditer` output; for group-based patterns
the value and span are those of the relevant capture group). -/
structure RawMatch where
  value : String
  start : Nat
  stop : Nat
  deriving DecidableEq

/-- Entity built from a catalog match in `_regex_detection_aggressive`
(`detector.py`, lines 368-378). -/
def matchToEntity (m : PMatch) : Entity :=
  { type := m.type
    value := m.value
    start := m.start
    stop := m.stop
    confidence := m.confidence
    detection_method := "regex"
    explanation := m.description }

/-- One iteration of an "aggressive" supplementary loop of
`_regex_detection_aggressive` (`detector.py`, lines 381-396 for CPF with
`ty = "CPF"`, `conf = 0.7`, `lo = 9`, `hi = 11`; lines 399-413 for phones with
`ty = "TELEFONE"`, `conf = 0.75`, `lo = 8`, `hi = 11`): skip the hit if some
already-collected entity has the exact same value string, otherwise append it
when its digit count lies in `[lo, hi]`. -/
def aggStep (ty : String) (conf : ℚ) (expl : String) (lo hi : Nat)
    (entities : List Entity) (m : RawMatch) : List Entity :=
  if entities.any (fun e => e.value = m.value) then entities
  else
    let digits := digitCount m.value
    if lo ≤ digits ∧ digits ≤ hi then
      entities ++
        [{ type := ty, value := m.value, start := m.start, stop := m.stop,
           confidence := conf, detection_method := "regex_aggressive",
           explanation := expl }]
    else entities

/-- `PIIGuardian._regex_detection_aggressive` (`detector.py`, lines 356-415):
catalog hits (already deduplicated by `find_all`) become entities, then the
two aggressive loops run over their own regex scans (`aggCpf` then
`aggPhone`). -/
def regexDetectionAggressive (catalogRaw : List PMatch)
    (aggCpf aggPhone : List RawMatch) : List Entity :=
  let entities := (findAll catalogRaw).map matchToEntity
  let entities := aggCpf.foldl
    (aggStep "CPF" ((mkRat 7 10)) "Padrão agressivo de CPF detectado" 9 11) entities
  aggPhone.foldl
    (aggStep "TELEFONE" ((mkRat 75 100)) "Padrão agressivo de telefone detectado" 8 11)
    entities

/-- The inner loop of `_merge_detections` (`detector.py`, lines 526-535) for a
single external-model hit `b`: walk the pattern entities in order; at the
first overlap stop (the hit is redundant) and, if the hit's confidence is
strictly greater, raise that pattern entity's confidence to it and relabel the
method `hybrid`.  Returns the updated pattern list and whether an overlap was
found. -/
def mergeStep (b : Entity) : List Entity → List Entity × Bool
  | [] => ([], false)
  | r :: rs =>
    if hasOverlapE b r then
      (if r.confidence < b.confidence then
        ({ r with confidence := b.confidence,
                  detection_method := "hybrid" } :: rs)
       else r :: rs, true)
    else
      let p := mergeStep b rs
      (r :: p.1, p.2)

/-- `PIIGuardian._merge_detections` (`detector.py`, lines 509-540).  Python
appends the (aliased, in-place updated) regex entities first and the
non-redundant model hits afterwards; here the updated regex list is threaded
through the fold over model hits. -/
def mergeDetections (regexMatches bertMatches : List Entity) : List Entity :=
  let final := bertMatches.foldl
    (fun st b =>
      let p := mergeStep b st.1
      if p.2 then (p.1, st.2) else (p.1, st.2 ++ [b]))
    (regexMatches, ([] : List Entity))
  final.1 ++ final.2

/-- The raw regex scans consumed by `_anti_false_negative_filter`
(`detector.py`, lines 542-628): the contextual-catalog hits and the three
hardwired keyword patterns.  For `numberRaw` the value/span are those of
group 2 of the number pattern, for `cpfCtxRaw` group 2 of the CPF-context
pattern (value unstripped), for `nameRaw` group 2 of the honorific pattern. -/
structure AntiFNRaw where
  ctxRaw : List CtxRaw
  numberRaw : List RawMatch
  cpfCtxRaw : List RawMatch
  nameRaw : List RawMatch
  deriving DecidableEq

/-- `PIIGuardian._anti_false_negative_filter` (`detector.py`, lines 542-628). -/
def antiFNFilter (entities : List Entity) (raw : AntiFNRaw) : List Entity :=
  -- contextual-catalog hits: dropped when an existing entity has the same
  -- value or an overlapping span, or when the value is blank
  let entities := (findContextual raw.ctxRaw).foldl
    (fun es m =>
      let is_duplicate :=
        es.any (fun e => e.value = m.value ∨ hasOverlapDict m e)
      if ¬ is_duplicate ∧ pyStrip m.value ≠ "" then
        es ++ [{ type := m.type, value := m.value, start := m.start,
                 stop := m.stop, confidence := m.confidence,
                 detection_method := "contextual",
                 explanation := "Detectado por contexto: \x27" ++
                   String.mk (m.full_context.toList.take 50) ++ "...\x27" }]
      else es)
    entities
  -- hardwired pattern 1: digits after a phone keyword
  let entities := raw.numberRaw.foldl
    (fun es m =>
      if ¬ es.any (fun e => e.value = m.value) then
        es ++ [{ type := "TELEFONE_CONTEXTUAL", value := m.value,
                 start := m.start, stop := m.stop, confidence := (mkRat 88 100),
                 detection_method := "anti_fn",
                 explanation := "Contexto explícito de telefone detectado" }]
      else es)
    entities
  -- hardwired pattern 2: digits after a CPF keyword (value stripped)
  let entities := raw.cpfCtxRaw.foldl
    (fun es m =>
      let value := pyStrip m.value
      if 9 ≤ digitCount value ∧ ¬ es.any (fun e => e.value = value) then
        es ++ [{ type := "CPF_CONTEXTUAL", value := value,
                 start := m.start, stop := m.stop, confidence := (mkRat 85 100),
                 detection_method := "anti_fn",
                 explanation := "Menção explícita de CPF no contexto" }]
      else es)
    entities
  -- hardwired pattern 3: capitalized name after an honorific
  raw.nameRaw.foldl
    (fun es m =>
      if ¬ es.any (fun e => e.value = m.value) then
        let words := pySplit (pyLower m.value)
        let has_common_name := words.any (fun w => w ∈ BRAZILIAN_NAMES)
        if has_common_name ∨ 2 ≤ words.length then
          es ++ [{ type := "NOME_PESSOA", value := m.value,
                   start := m.start, stop := m.stop, confidence := (mkRat 75 100),
                   detection_method := "anti_fn",
                   explanation :=
                     "Nome detectado após palavra-chave de tratamento" }]
        else es
      else es)
    entities

/-- The validator registry built in `PIIGuardian.__init__`
(`detector.py`, lines 202-209). -/
def validatorsFor (base : String) : Option (String → ValidationResult) :=
  if base = "CPF" then some cpfValidate
  else if base = "CNPJ" then some cnpjValidate
  else if base = "TELEFONE" then some phoneValidate
  else if base = "CELULAR" then some phoneValidate
  else if base = "EMAIL" then some emailValidate
  else if base = "CEP" then some cepValidate
  else none

/-- The per-entity body of `PIIGuardian._validate_consistency`
(`detector.py`, lines 639-670): returns the zero or one entities the loop
appends to `validated_entities` for this entity. -/
def valOne (mode : DetectionMode) (entity : Entity) : List Entity :=
  let base_type := baseTypeOf entity.type
  match validatorsFor base_type with
  | some validator =>
    let result := validator entity.value
    let entity := { entity with
      validation_status := if result.is_valid then "valid" else "invalid"
      validation_message := result.message }
    if result.is_valid then
      [{ entity with
          confidence := max entity.confidence result.confidence
          explanation := entity.explanation ++ " | Validação: " ++
            result.message }]
    else if base_type = "CPF" ∨ base_type = "CNPJ" then
      if mode = .strict then
        [{ entity with
            confidence := qmul entity.confidence (mkRat 5 10)
            explanation := entity.explanation ++ " | AVISO: " ++
              result.message }]
      else []
    else
      [entity]
  | none =>
    [{ entity with validation_status := "not_applicable" }]

/-- `PIIGuardian._validate_consistency` (`detector.py`, lines 630-672). -/
def validateConsistency (mode : DetectionMode) (entities : List Entity) :
    List Entity :=
  (entities.map (valOne mode)).flatten

/-- The effective threshold for a base type:
`thresholds.get(base_type, thresholds.get('DEFAULT', 0.5))`. -/
def effThreshold (thresholds : ThDict) (base : String) : ℚ :=
  (dictGet thresholds base).getD ((dictGet thresholds "DEFAULT").getD ((mkRat 5 10)))

/-- `PIIGuardian._apply_thresholds` (`detector.py`, lines 674-693). -/
def applyThresholds (thresholds : ThDict) (entities : List Entity) :
    List Entity :=
  entities.filter fun entity =>
    effThreshold thresholds (baseTypeOf entity.type) ≤ entity.confidence

/-- Increment the count for a key in an insertion-ordered dict
(Python `by_type[t] = by_type.get(t, 0) + 1`). -/
def bumpCount (d : List (String × Nat)) (k : String) : List (String × Nat) :=
  match d with
  | [] => [(k, 1)]
  | (k', v) :: rest =>
    if k' = k then (k', v + 1) :: rest else (k', v) :: bumpCount rest k

/-- The `by_type` summary of `detect` (`detector.py`, lines 330-333). -/
def byTypeSummary (entities : List Entity) : List (String × Nat) :=
  entities.foldl (fun d e => bumpCount d (baseTypeOf e.type)) []

/-- `DetectionResult` (`detector.py`, lines 115-130), with the summary and
metadata fields flattened.  `processing_time_ms` (wall-clock time) is not
modelled. -/
structure DetectionResult where
  has_pii : Bool
  entities : List Entity
  total_entities : Nat
  by_type : List (String × Nat)
  text_length : Nat
  mode : DetectionMode
  bert_enabled : Bool
  deriving DecidableEq

/-- All regex-layer inputs of one `detect` call: the raw scans of the pattern
catalog, of the two aggressive expressions, of the anti-false-negative
patterns, and the external model's candidates (`bertMatches`, used only when
`use_bert` is set and a model is loaded, i.e. `bertModel = true`). -/
structure RawInputs where
  catalogRaw : List PMatch
  aggCpf : List RawMatch
  aggPhone : List RawMatch
  bertModel : Bool
  bertMatches : List Entity
  antiFN : AntiFNRaw
  deriving DecidableEq

/-- Phases 1-6 of `PIIGuardian.detect` (`detector.py`, lines 288-324): the
final filtered entity list of one call (empty for blank input). -/
def detectEntities (config : DetectionConfig) (text : String)
    (raws : RawInputs) : List Entity :=
  if text = "" ∨ pyStrip text = "" then []
  else
    let regex_matches :=
      regexDetectionAggressive raws.catalogRaw raws.aggCpf raws.aggPhone
    let bert_matches :=
      if config.use_bert ∧ raws.bertModel then raws.bertMatches else []
    let merged := mergeDetections regex_matches bert_matches
    let merged :=
      if config.use_contextual then antiFNFilter merged raws.antiFN else merged
    let validated :=
      if config.validate_documents then validateConsistency config.mode merged
      else merged
    applyThresholds config.thresholds validated

/-- `PIIGuardian.detect` (`detector.py`, lines 276-354). -/
def detect (config : DetectionConfig) (text : String) (raws : RawInputs) :
    DetectionResult :=
  if text = "" ∨ pyStrip text = "" then
    { has_pii := false, entities := [], total_entities := 0, by_type := [],
      text_length := 0, mode := config.mode, bert_enabled := raws.bertModel }
  else
    let filtered := detectEntities config text raws
    { has_pii := 0 < filtered.length
      entities := filtered
      total_entities := filtered.length
      by_type := byTypeSummary filtered
      text_length := text.length
      mode := config.mode
      bert_enabled := raws.bertModel }

/-! ## Specification-side definitions (written from the spec's words, for the
refinement claims about the checksum validators) -/

/-- Modelled from the spec: "an all-repeated-digit sequence". -/
def specAllRepeated (s : String) : Bool :=
  match s.toList with
  | [] => false
  | c :: rest => rest.all (fun x => x = c)

/-- Modelled from the spec: the mod-11 check-digit rule
"remainder < 2 gives 0, else 11 minus remainder". -/
def specMod11Digit (sum : Nat) : Nat :=
  if sum % 11 < 2 then 0 else 11 - sum % 11

/-- Modelled from the spec: both CPF check digits computed by the weighted-sum
mod-11 rule (weights 10..2 for digit 1, 11..2 for digit 2) match the final two
digits. -/
def specCpfCheckOk (cleaned : String) : Bool :=
  let ds := digitsOf cleaned
  let d1 := specMod11Digit
    ((List.zipWith (· * ·) (ds.take 9) [10, 9, 8, 7, 6, 5, 4, 3, 2]).sum)
  let d2 := specMod11Digit
    ((List.zipWith (· * ·) (ds.take 10) [11, 10, 9, 8, 7, 6, 5, 4, 3, 2]).sum)
  ds.getD 9 0 = d1 ∧ ds.getD 10 0 = d2

/-- Modelled from the spec: a CPF is valid iff the cleaned value has exactly
11 digits, is not an all-repeated-digit sequence, and both check digits
match. -/
def specCpfValid (cleaned : String) : Bool :=
  cleaned.toList.length = 11 && !(specAllRepeated cleaned) &&
    specCpfCheckOk cleaned

/-- Modelled from the spec: both CNPJ check digits computed with the two fixed
weight vectors match the final two digits. -/
def specCnpjCheckOk (cleaned : String) : Bool :=
  let ds := digitsOf cleaned
  let d1 := specMod11Digit ((List.zipWith (· * ·) (ds.take 12) WEIGHTS_FIRST).sum)
  let d2 := specMod11Digit ((List.zipWith (· * ·) (ds.take 13) WEIGHTS_SECOND).sum)
  ds.getD 12 0 = d1 ∧ ds.getD 13 0 = d2

/-- Modelled from the spec: a CNPJ is valid iff the cleaned value has exactly
14 digits, is not an all-repeated-digit sequence, and both check digits
match. -/
def specCnpjValid (cleaned : String) : Bool :=
  cleaned.toList.length = 14 && !(specAllRepeated cleaned) &&
    specCnpjCheckOk cleaned

/-! ## Helper lemmas -/

lemma cleanDigits_all_digits (s : String) :
    (cleanDigits s).toList.all Char.isDigit = true := by
  simp only [cleanDigits, List.all_eq_true]
  intro c hc
  exact (List.mem_filter.mp hc).2

lemma digit_char_eq_of_isDigit (c : Char) (h : c.isDigit = true) :
    c = '0' ∨ c = '1' ∨ c = '2' ∨ c = '3' ∨ c = '4' ∨ c = '5' ∨ c = '6' ∨
      c = '7' ∨ c = '8' ∨ c = '9' := by
  have h48 : 48 ≤ c.toNat := by
    simp only [Char.isDigit, Bool.and_eq_true, decide_eq_true_eq] at h
    exact h.1
  have h57 : c.toNat ≤ 57 := by
    simp only [Char.isDigit, Bool.and_eq_true, decide_eq_true_eq] at h
    exact h.2
  have hofn : Char.ofNat c.toNat = c := Char.ofNat_toNat c
  have hcases : c.toNat = 48 ∨ c.toNat = 49 ∨ c.toNat = 50 ∨ c.toNat = 51 ∨
      c.toNat = 52 ∨ c.toNat = 53 ∨ c.toNat = 54 ∨ c.toNat = 55 ∨
      c.toNat = 56 ∨ c.toNat = 57 := by omega
  rcases hcases with h0 | h0 | h0 | h0 | h0 | h0 | h0 | h0 | h0 | h0 <;>
    rw [← hofn, h0] <;> simp [Char.ofNat]

lemma mul10_mod11_mod10 (n : Nat) : n * 10 % 11 % 10 = specMod11Digit n := by
  unfold specMod11Digit
  have h10 : n * 10 % 11 = n % 11 * 10 % 11 := by
    conv_lhs => rw [Nat.mul_mod]
  rw [h10]
  have hlt : n % 11 < 11 := Nat.mod_lt n (by norm_num)
  generalize n % 11 = r at hlt ⊢
  interval_cases r <;> decide

/-- If a string of length `n + 1` has every character equal to its head and
every character a digit, it is the string of `n + 1` copies of one digit. -/
lemma eq_repeated_digit (c : String) (d : Char) (rest : List Char) (n : Nat)
    (hcs : c.toList = d :: rest) (hlen : c.toList.length = n + 1)
    (h : rest.all (fun x => x = d) = true) :
    c = String.mk (d :: List.replicate n d) := by
  have hrl : rest.length = n := by
    rw [hcs] at hlen
    simpa using hlen
  have hrep : rest = List.replicate n d := by
    rw [List.eq_replicate_iff]
    refine ⟨hrl, ?_⟩
    intro b hb
    have := (List.all_eq_true.mp h) b hb
    simpa using this
  have hlist : c.toList = d :: List.replicate n d := by rw [hcs, hrep]
  calc c = String.mk c.toList := rfl
    _ = String.mk (d :: List.replicate n d) := by rw [hlist]

/-- For an 11-character all-digit string, membership in the fixed
`INVALID_CPFS` set coincides with being an all-repeated-digit sequence. -/
lemma mem_INVALID_CPFS_iff (c : String) (hlen : c.toList.length = 11)
    (hdig : c.toList.all Char.isDigit = true) :
    c ∈ INVALID_CPFS ↔ specAllRepeated c = true := by
  constructor
  · intro h
    fin_cases h <;> decide
  · intro h
    unfold specAllRepeated at h
    rcases hcs : c.toList with _ | ⟨d, rest⟩
    · rw [hcs] at hlen; simp at hlen
    · rw [hcs] at h
      simp only at h
      have hdigd : d.isDigit = true :=
        (List.all_eq_true.mp hdig) d (by rw [hcs]; exact List.mem_cons_self d rest)
      have hc := eq_repeated_digit c d rest 10 hcs hlen h
      rcases digit_char_eq_of_isDigit d hdigd with
        h0 | h0 | h0 | h0 | h0 | h0 | h0 | h0 | h0 | h0 <;>
        subst h0 <;> rw [hc] <;> decide

/-- Likewise for the 14-digit corporate set. -/
lemma mem_INVALID_CNPJS_iff (c : String) (hlen : c.toList.length = 14)
    (hdig : c.toList.all Char.isDigit = true) :
    c ∈ INVALID_CNPJS ↔ specAllRepeated c = true := by
  constructor
  · intro h
    fin_cases h <;> decide
  · intro h
    unfold specAllRepeated at h
    rcases hcs : c.toList with _ | ⟨d, rest⟩
    · rw [hcs] at hlen; simp at hlen
    · rw [hcs] at h
      simp only at h
      have hdigd : d.isDigit = true :=
        (List.all_eq_true.mp hdig) d (by rw [hcs]; exact List.mem_cons_self d rest)
      have hc := eq_repeated_digit c d rest 13 hcs hlen h
      rcases digit_char_eq_of_isDigit d hdigd with
        h0 | h0 | h0 | h0 | h0 | h0 | h0 | h0 | h0 | h0 <;>
        subst h0 <;> rw [hc] <;> decide

lemma pyIsDigitStr_of_len (c : String) (hdig : c.toList.all Char.isDigit = true)
    (hne : c.toList ≠ []) : pyIsDigitStr c = true := by
  simp only [pyIsDigitStr, Bool.and_eq_true, decide_eq_true_eq, ne_eq]
  exact ⟨hne, hdig⟩

lemma specCpfValid_iff (c : String) :
    specCpfValid c = true ↔
      c.toList.length = 11 ∧ specAllRepeated c = false ∧
        specCpfCheckOk c = true := by
  simp only [specCpfValid, Bool.and_eq_true, Bool.not_eq_true',
    decide_eq_true_eq]
  tauto

lemma specCpfCheckOk_iff (c : String) :
    specCpfCheckOk c = true ↔
      ((digitsOf c).getD 9 0 = specMod11Digit
          ((List.zipWith (· * ·) ((digitsOf c).take 9)
            [10, 9, 8, 7, 6, 5, 4, 3, 2]).sum) ∧
        (digitsOf c).getD 10 0 = specMod11Digit
          ((List.zipWith (· * ·) ((digitsOf c).take 10)
            [11, 10, 9, 8, 7, 6, 5, 4, 3, 2]).sum)) := by
  simp only [specCpfCheckOk, Bool.and_eq_true, decide_eq_true_eq]

/-- Modelled from the spec: "confidence is 0.98 on success, 0.3 on a
check-digit mismatch, and 0.0 on structural failure" (CPF). -/
def specCpfConfidence (c : String) : ℚ :=
  if specCpfValid c = true then (mkRat 98 100)
  else if c.toList.length = 11 ∧ specAllRepeated c = false then (mkRat 3 10)
  else 0

lemma specAllRepeated_false_of_not_mem_cpf (c : String)
    (hlen : c.toList.length = 11) (hdig : c.toList.all Char.isDigit = true)
    (h3 : c ∉ INVALID_CPFS) : specAllRepeated c = false := by
  cases hsp : specAllRepeated c
  · rfl
  · exact absurd ((mem_INVALID_CPFS_iff c hlen hdig).mpr hsp) h3

/-- `CPFValidator.validate` refines the spec's description: its verdict is the
spec-modelled validity predicate and its confidence is 0.98 / 0.3 / 0.0
according to success / check-digit mismatch / structural failure. -/
lemma cpfValidateClean_spec (c : String)
    (hdig : c.toList.all Char.isDigit = true) :
    (cpfValidateClean c).is_valid = specCpfValid c ∧
      (cpfValidateClean c).confidence = specCpfConfidence c := by
  simp only [cpfValidateClean]
  split_ifs with h1 h2 h3 h4 h5
  · have hsv : specCpfValid c = false := by
      rw [Bool.eq_false_iff]
      intro hb
      exact h1 ((specCpfValid_iff c).mp hb).1
    refine ⟨hsv.symm, ?_⟩
    unfold specCpfConfidence
    rw [if_neg (by simp [hsv]), if_neg (fun h => h1 h.1)]
  · have hlen : c.toList.length = 11 := by omega
    have hrepT : specAllRepeated c = true :=
      (mem_INVALID_CPFS_iff c hlen hdig).mp h3
    have hsv : specCpfValid c = false := by
      rw [Bool.eq_false_iff]
      intro hb
      obtain ⟨-, hrf, -⟩ := (specCpfValid_iff c).mp hb
      rw [hrf] at hrepT
      exact Bool.false_ne_true hrepT
    refine ⟨hsv.symm, ?_⟩
    unfold specCpfConfidence
    rw [if_neg (by simp [hsv]),
      if_neg (by intro h; rw [h.2] at hrepT; exact Bool.false_ne_true hrepT)]
  · have hlen : c.toList.length = 11 := by omega
    have hrepF := specAllRepeated_false_of_not_mem_cpf c hlen hdig h3
    have hsv : specCpfValid c = false := by
      rw [Bool.eq_false_iff]
      intro hb
      obtain ⟨-, -, hck⟩ := (specCpfValid_iff c).mp hb
      rw [mul10_mod11_mod10] at h4
      exact h4 (((specCpfCheckOk_iff c).mp hck).1.symm)
    refine ⟨hsv.symm, ?_⟩
    unfold specCpfConfidence
    rw [if_neg (by simp [hsv]), if_pos ⟨hlen, hrepF⟩]
  · have hlen : c.toList.length = 11 := by omega
    have hrepF := specAllRepeated_false_of_not_mem_cpf c hlen hdig h3
    have hsv : specCpfValid c = false := by
      rw [Bool.eq_false_iff]
      intro hb
      obtain ⟨-, -, hck⟩ := (specCpfValid_iff c).mp hb
      rw [mul10_mod11_mod10] at h5
      exact h5 (((specCpfCheckOk_iff c).mp hck).2.symm)
    refine ⟨hsv.symm, ?_⟩
    unfold specCpfConfidence
    rw [if_neg (by simp [hsv]), if_pos ⟨hlen, hrepF⟩]
  · have hlen : c.toList.length = 11 := by omega
    have hrepF := specAllRepeated_false_of_not_mem_cpf c hlen hdig h3
    have hsv : specCpfValid c = true := by
      rw [specCpfValid_iff c]
      refine ⟨hlen, hrepF, ?_⟩
      rw [specCpfCheckOk_iff c]
      rw [mul10_mod11_mod10] at h4 h5
      constructor
      · by_contra hx
        exact h4 fun hy => hx hy.symm
      · by_contra hx
        exact h5 fun hy => hx hy.symm
    refine ⟨hsv.symm, ?_⟩
    unfold specCpfConfidence
    rw [if_pos hsv]
  · exact absurd (pyIsDigitStr_of_len c hdig
      (by intro hnil; rw [hnil] at h1; simp at h1)) h2

/-- Modelled from the spec: "confidence is 0.98 on success, 0.3 on a
check-digit mismatch, and 0.0 on structural failure" (CNPJ). -/
def specCnpjConfidence (c : String) : ℚ :=
  if specCnpjValid c = true then (mkRat 98 100)
  else if c.toList.length = 14 ∧ specAllRepeated c = false then (mkRat 3 10)
  else 0

lemma specCnpjValid_iff (c : String) :
    specCnpjValid c = true ↔
      c.toList.length = 14 ∧ specAllRepeated c = false ∧
        specCnpjCheckOk c = true := by
  simp only [specCnpjValid, Bool.and_eq_true, Bool.not_eq_true',
    decide_eq_true_eq]
  tauto

lemma specCnpjCheckOk_iff (c : String) :
    specCnpjCheckOk c = true ↔
      ((digitsOf c).getD 12 0 = specMod11Digit
          ((List.zipWith (· * ·) ((digitsOf c).take 12) WEIGHTS_FIRST).sum) ∧
        (digitsOf c).getD 13 0 = specMod11Digit
          ((List.zipWith (· * ·) ((digitsOf c).take 13) WEIGHTS_SECOND).sum)) := by
  simp only [specCnpjCheckOk, Bool.and_eq_true, decide_eq_true_eq]

lemma specAllRepeated_false_of_not_mem_cnpj (c : String)
    (hlen : c.toList.length = 14) (hdig : c.toList.all Char.isDigit = true)
    (h3 : c ∉ INVALID_CNPJS) : specAllRepeated c = false := by
  cases hsp : specAllRepeated c
  · rfl
  · exact absurd ((mem_INVALID_CNPJS_iff c hlen hdig).mpr hsp) h3

/-- `CNPJValidator.validate` refines the spec's description. -/
lemma cnpjValidateClean_spec (c : String)
    (hdig : c.toList.all Char.isDigit = true) :
    (cnpjValidateClean c).is_valid = specCnpjValid c ∧
      (cnpjValidateClean c).confidence = specCnpjConfidence c := by
  simp only [cnpjValidateClean]
  split_ifs with h1 h2 h3 h4 h5
  · have hsv : specCnpjValid c = false := by
      rw [Bool.eq_false_iff]
      intro hb
      exact h1 ((specCnpjValid_iff c).mp hb).1
    refine ⟨hsv.symm, ?_⟩
    unfold specCnpjConfidence
    rw [if_neg (by simp [hsv]), if_neg (fun h => h1 h.1)]
  · have hlen : c.toList.length = 14 := by omega
    have hrepT : specAllRepeated c = true :=
      (mem_INVALID_CNPJS_iff c hlen hdig).mp h3
    have hsv : specCnpjValid c = false := by
      rw [Bool.eq_false_iff]
      intro hb
      obtain ⟨-, hrf, -⟩ := (specCnpjValid_iff c).mp hb
      rw [hrf] at hrepT
      exact Bool.false_ne_true hrepT
    refine ⟨hsv.symm, ?_⟩
    unfold specCnpjConfidence
    rw [if_neg (by simp [hsv]),
      if_neg (by intro h; rw [h.2] at hrepT; exact Bool.false_ne_true hrepT)]
  · have hlen : c.toList.length = 14 := by omega
    have hrepF := specAllRepeated_false_of_not_mem_cnpj c hlen hdig h3
    have hsv : specCnpjValid c = false := by
      rw [Bool.eq_false_iff]
      intro hb
      obtain ⟨-, -, hck⟩ := (specCnpjValid_iff c).mp hb
      exact h4 (((specCnpjCheckOk_iff c).mp hck).1.symm)
    refine ⟨hsv.symm, ?_⟩
    unfold specCnpjConfidence
    rw [if_neg (by simp [hsv]), if_pos ⟨hlen, hrepF⟩]
  · have hlen : c.toList.length = 14 := by omega
    have hrepF := specAllRepeated_false_of_not_mem_cnpj c hlen hdig h3
    have hsv : specCnpjValid c = false := by
      rw [Bool.eq_false_iff]
      intro hb
      obtain ⟨-, -, hck⟩ := (specCnpjValid_iff c).mp hb
      exact h5 (((specCnpjCheckOk_iff c).mp hck).2.symm)
    refine ⟨hsv.symm, ?_⟩
    unfold specCnpjConfidence
    rw [if_neg (by simp [hsv]), if_pos ⟨hlen, hrepF⟩]
  · have hlen : c.toList.length = 14 := by omega
    have hrepF := specAllRepeated_false_of_not_mem_cnpj c hlen hdig h3
    have hsv : specCnpjValid c = true := by
      rw [specCnpjValid_iff c]
      refine ⟨hlen, hrepF, ?_⟩
      rw [specCnpjCheckOk_iff c]
      constructor
      · by_contra hx
        exact h4 fun hy => hx hy.symm
      · by_contra hx
        exact h5 fun hy => hx hy.symm
    refine ⟨hsv.symm, ?_⟩
    unfold specCnpjConfidence
    rw [if_pos hsv]
  · exact absurd (pyIsDigitStr_of_len c hdig
      (by intro hnil; rw [hnil] at h1; simp at h1)) h2

lemma string_toList_append (a b : String) :
    (a ++ b).toList = a.toList ++ b.toList := rfl

lemma string_append_ne_empty (a b : String) (h : a ≠ "") : a ++ b ≠ "" := by
  intro hab
  apply h
  have hd : (a ++ b).toList = [] := by rw [hab]; rfl
  rw [string_toList_append] at hd
  have : a.toList = [] := by
    cases hl : a.toList
    · rfl
    · rw [hl] at hd; simp at hd
  calc a = String.mk a.toList := rfl
    _ = String.mk [] := by rw [this]
    _ = "" := rfl

lemma cpfValidate_message_ne (s : String) : (cpfValidate s).message ≠ "" := by
  simp only [cpfValidate, cpfValidateClean]
  split_ifs <;> dsimp only <;>
    first
      | decide
      | ((repeat apply string_append_ne_empty) <;> decide)

lemma cnpjValidate_message_ne (s : String) : (cnpjValidate s).message ≠ "" := by
  simp only [cnpjValidate, cnpjValidateClean]
  split_ifs <;> dsimp only <;>
    first
      | decide
      | ((repeat apply string_append_ne_empty) <;> decide)

lemma phoneValidate_message_ne (s : String) : (phoneValidate s).message ≠ "" := by
  simp only [phoneValidate]
  split_ifs <;> dsimp only <;>
    first
      | decide
      | ((repeat apply string_append_ne_empty) <;> decide)

lemma emailValidate_message_ne (s : String) : (emailValidate s).message ≠ "" := by
  simp only [emailValidate]
  split_ifs <;> dsimp only <;>
    first
      | decide
      | ((repeat apply string_append_ne_empty) <;> decide)

lemma cpfValidate_wrong_length (s : String)
    (h : (cleanDigits s).toList.length ≠ 11) :
    (cpfValidate s).is_valid = false ∧ (cpfValidate s).confidence = 0 := by
  simp only [cpfValidate, cpfValidateClean]
  rw [if_pos h]
  exact ⟨rfl, rfl⟩

lemma cnpjValidate_wrong_length (s : String)
    (h : (cleanDigits s).toList.length ≠ 14) :
    (cnpjValidate s).is_valid = false ∧ (cnpjValidate s).confidence = 0 := by
  simp only [cnpjValidate, cnpjValidateClean]
  rw [if_pos h]
  exact ⟨rfl, rfl⟩

lemma phoneValidate_wrong_length (s : String)
    (h : ¬ ((phoneCleanAdjusted s).length = 10 ∨
      (phoneCleanAdjusted s).length = 11)) :
    (phoneValidate s).is_valid = false ∧ (phoneValidate s).confidence = 0 := by
  simp only [phoneValidate]
  rw [if_pos h]
  exact ⟨rfl, rfl⟩

lemma cepValidate_wrong_length (s : String)
    (h : (cleanDigits s).toList.length ≠ 8) :
    (cepValidate s).is_valid = false ∧ (cepValidate s).confidence = 0 := by
  simp only [cepValidate]
  rw [if_pos h]
  exact ⟨rfl, rfl⟩

lemma emailValidate_format_fail (s : String)
    (h : emailPatternMatch (pyLower (pyStrip s)) = false) :
    (emailValidate s).is_valid = false ∧ (emailValidate s).confidence = 0 := by
  simp only [emailValidate]
  rw [if_pos (by simp [h])]
  exact ⟨rfl, rfl⟩

lemma emailPatternMatch_mem_at (s : String) (h : emailPatternMatch s = true) :
    '@' ∈ s.toList := by
  simp only [emailPatternMatch] at h
  rcases hd : s.toList.drop (s.toList.takeWhile isLocalChar).length with
    _ | ⟨c, rest⟩
  · rw [hd] at h; simp at h
  · rw [hd] at h
    simp only [Bool.and_eq_true, decide_eq_true_eq] at h
    have hc : c = '@' := h.1.1.1.1.1.1
    subst hc
    exact List.mem_of_mem_drop (hd ▸ List.mem_cons_self '@' rest)

lemma cepValidate_message_ne (s : String) : (cepValidate s).message ≠ "" := by
  simp only [cepValidate]
  split_ifs <;> dsimp only <;>
    first
      | decide
      | ((repeat apply string_append_ne_empty) <;> decide)

lemma emailValidate_local_too_long (s : String)
    (hm : emailPatternMatch (pyLower (pyStrip s)) = true)
    (hl : 64 < (localOfEmail (pyLower (pyStrip s)).toList).length) :
    (emailValidate s).is_valid = false ∧
      (emailValidate s).confidence = (mkRat 3 10) := by
  simp only [emailValidate]
  rw [if_neg (by simp [hm]),
    if_neg (not_not_intro (emailPatternMatch_mem_at (pyLower (pyStrip s)) hm)),
    if_pos (by omega)]
  exact ⟨rfl, rfl⟩

/-! ## Claim theorems -/

/-- **C2.** `CPFValidator.validate` and `CNPJValidator.validate` implement the
official mod-11 check-digit algorithms exactly: for every input string the
verdict equals the spec-modelled predicate (cleaned value has exactly 11 resp.
14 digits, is not an all-repeated-digit sequence, and both weighted-sum mod-11
check digits match), and the confidence is 0.98 on success, 0.3 on a
check-digit mismatch, 0.0 on structural failure.  The four concrete examples
of the spec behave as stated. -/
theorem C2_checksum_validators_exact :
    (∀ s : String,
      (cpfValidate s).is_valid = specCpfValid (cleanDigits s) ∧
      (cpfValidate s).confidence = specCpfConfidence (cleanDigits s) ∧
      (cnpjValidate s).is_valid = specCnpjValid (cleanDigits s) ∧
      (cnpjValidate s).confidence = specCnpjConfidence (cleanDigits s)) ∧
    (cpfValidate "529.982.247-25").is_valid = true ∧
    (cpfValidate "111.111.111-11").is_valid = false ∧
    (cnpjValidate "11.222.333/0001-81").is_valid = true ∧
    (cnpjValidate "11.111.111/1111-11").is_valid = false := by
  refine ⟨fun s => ?_, by decide, by decide, by decide, by decide⟩
  obtain ⟨h1, h2⟩ :=
    cpfValidateClean_spec (cleanDigits s) (cleanDigits_all_digits s)
  obtain ⟨h3, h4⟩ :=
    cnpjValidateClean_spec (cleanDigits s) (cleanDigits_all_digits s)
  exact ⟨h1, h2, h3, h4⟩

/-- The email used to refute claim C8: its local part has 65 characters, one
more than the allowed 64, a length (structural) failure. -/
def c8LongLocalEmail : String := String.mk (List.replicate 65 'a') ++ "@b.com"

/-- **C8, counterexample.** The claim says every validator returns
`confidence = 0.0` on any structural failure (wrong length or non-digit
characters in the candidate).  But `EmailValidator.validate`, on a
regex-valid email whose local part is 65 characters long (a wrong-length
failure), returns `is_valid = false` with `confidence = 0.3`, not `0.0`
(`validators.py`, lines 431-436). -/
theorem C8_counterexample :
    64 < (localOfEmail (pyLower (pyStrip c8LongLocalEmail)).toList).length ∧
    (emailValidate c8LongLocalEmail).is_valid = false ∧
    (emailValidate c8LongLocalEmail).confidence = (mkRat 3 10) ∧
    ¬ (emailValidate c8LongLocalEmail).confidence = 0 := by decide

/-- **C8, amended.**  Every validator is total (each is a Lean function, so it
returns a `ValidationResult` on every input and cannot raise), always carries
a nonempty descriptive message, and on a wrong-length structural failure
returns `is_valid = false` with `confidence = 0.0` — except that
`EmailValidator.validate` returns `confidence = 0.3` (not 0.0) for a
regex-valid email whose local part exceeds 64 characters; its
`confidence = 0.0` case is the format-regex mismatch. -/
theorem C8_amended (s : String) :
    ((cpfValidate s).message ≠ "" ∧ (cnpjValidate s).message ≠ "" ∧
      (phoneValidate s).message ≠ "" ∧ (emailValidate s).message ≠ "" ∧
      (cepValidate s).message ≠ "") ∧
    ((cleanDigits s).toList.length ≠ 11 →
      (cpfValidate s).is_valid = false ∧ (cpfValidate s).confidence = 0) ∧
    ((cleanDigits s).toList.length ≠ 14 →
      (cnpjValidate s).is_valid = false ∧ (cnpjValidate s).confidence = 0) ∧
    (¬ ((phoneCleanAdjusted s).length = 10 ∨
        (phoneCleanAdjusted s).length = 11) →
      (phoneValidate s).is_valid = false ∧ (phoneValidate s).confidence = 0) ∧
    ((cleanDigits s).toList.length ≠ 8 →
      (cepValidate s).is_valid = false ∧ (cepValidate s).confidence = 0) ∧
    (emailPatternMatch (pyLower (pyStrip s)) = false →
      (emailValidate s).is_valid = false ∧
        (emailValidate s).confidence = 0) ∧
    (emailPatternMatch (pyLower (pyStrip s)) = true →
      64 < (localOfEmail (pyLower (pyStrip s)).toList).length →
      (emailValidate s).is_valid = false ∧
        (emailValidate s).confidence = (mkRat 3 10)) := by
  refine ⟨⟨cpfValidate_message_ne s, cnpjValidate_message_ne s,
      phoneValidate_message_ne s, emailValidate_message_ne s,
      cepValidate_message_ne s⟩,
    cpfValidate_wrong_length s, cnpjValidate_wrong_length s,
    phoneValidate_wrong_length s, cepValidate_wrong_length s,
    emailValidate_format_fail s, emailValidate_local_too_long s⟩

/-- Witness for C8 (amended): the concrete string `"123"` has a wrong-length
cleaned value for every digit validator, and its lowercased strip fails the
email format regex. -/
theorem C8_amended_witness :
    (cpfValidate "123").is_valid = false ∧ (cpfValidate "123").confidence = 0 ∧
    (phoneValidate "123").is_valid = false ∧
    (emailValidate "123").confidence = 0 := by
  have h := C8_amended "123"
  refine ⟨(h.2.1 (by decide)).1, (h.2.1 (by decide)).2,
    (h.2.2.2.1 (by decide)).1, (h.2.2.2.2.2.1 (by decide)).2⟩

/-- A TELEFONE entity with a structurally invalid phone value, used to refute
the "kept unchanged" wording of claim C3. -/
def c3Entity : Entity :=
  { type := "TELEFONE", value := "123", start := 0, stop := 3,
    confidence := mkRat 5 10 }

/-- **C3, counterexample.**  The claim says a merged entity whose validator
reports invalid, with a base type other than CPF/CNPJ, "is kept unchanged".
The code keeps it but mutates it: `_validate_consistency` sets
`validation_status = 'invalid'` and `validation_message` before the keep
branch (`detector.py`, lines 649-650), so the kept entity differs from the
input entity. -/
theorem C3_counterexample :
    validateConsistency DetectionMode.balanced [c3Entity] ≠ [c3Entity] ∧
    (validateConsistency DetectionMode.balanced [c3Entity]).length = 1 ∧
    (validateConsistency DetectionMode.balanced [c3Entity]).map
      Entity.validation_status = ["invalid"] ∧
    (validateConsistency DetectionMode.balanced [c3Entity]).map
      Entity.confidence = [c3Entity.confidence] ∧
    c3Entity.validation_status = "not_validated" := by decide

/-- **C3, amended.**  The validation stage behaves as claimed except for the
wording "kept unchanged": for each merged entity, with `r` the verdict of the
registered validator on its value — valid ⇒ kept with confidence
`max(current, r.confidence)`, status `valid`, message recorded and appended to
the explanation; invalid with base type CPF/CNPJ ⇒ kept with halved confidence
only in strict mode (with a warning annotation) and discarded in
balanced/precise; invalid with any other base type ⇒ kept, with only its
validation status and message set to `invalid` / the validator's message;
no registered validator ⇒ kept as-is, marked `not_applicable`. -/
theorem C3_validation_stage (mode : DetectionMode) (e : Entity) :
    (validatorsFor (baseTypeOf e.type) = none →
      valOne mode e = [{ e with validation_status := "not_applicable" }]) ∧
    (∀ v, validatorsFor (baseTypeOf e.type) = some v →
      ((v e.value).is_valid = true →
        valOne mode e = [{ e with
          validation_status := "valid"
          validation_message := (v e.value).message
          confidence := max e.confidence (v e.value).confidence
          explanation := e.explanation ++ " | Validação: " ++
            (v e.value).message }]) ∧
      ((v e.value).is_valid = false →
        (baseTypeOf e.type = "CPF" ∨ baseTypeOf e.type = "CNPJ") →
        (mode = DetectionMode.strict →
          valOne mode e = [{ e with
            validation_status := "invalid"
            validation_message := (v e.value).message
            confidence := qmul e.confidence (mkRat 5 10)
            explanation := e.explanation ++ " | AVISO: " ++
              (v e.value).message }]) ∧
        (mode ≠ DetectionMode.strict → valOne mode e = [])) ∧
      ((v e.value).is_valid = false →
        ¬ (baseTypeOf e.type = "CPF" ∨ baseTypeOf e.type = "CNPJ") →
        valOne mode e = [{ e with
          validation_status := "invalid"
          validation_message := (v e.value).message }])) := by
  constructor
  · intro hnone
    simp only [valOne, hnone]
  · intro v hv
    refine ⟨?_, ?_, ?_⟩
    · intro hval
      simp only [valOne, hv, hval]
      rfl
    · intro hval hbase
      constructor
      · intro hmode
        subst hmode
        simp only [valOne, hv, hval]
        rw [if_neg (by simp), if_pos hbase]
        simp
      · intro hmode
        simp only [valOne, hv, hval]
        rw [if_neg (by simp), if_pos hbase, if_neg hmode]
    · intro hval hbase
      simp only [valOne, hv, hval]
      rw [if_neg (by simp), if_neg hbase]
      simp

/-- A CPF entity whose check digits are wrong, for the C3 witness. -/
def c3CpfEntity : Entity :=
  { type := "CPF", value := "123.456.789-00", start := 0, stop := 14,
    confidence := mkRat 9 10 }

/-- Witness for C3 (amended): a CPF entity with failing check digits is
discarded entirely in balanced mode. -/
theorem C3_validation_stage_witness :
    valOne DetectionMode.balanced c3CpfEntity = [] := by
  have h := (C3_validation_stage DetectionMode.balanced c3CpfEntity).2
    cpfValidate rfl
  exact (h.2.1 (by decide) (by decide)).2 (by decide)

/-- **C9.**  Each aggressive supplementary matcher adds a hit exactly when its
digit count is in range (9-11 for the CPF matcher, 8-11 for the phone
matcher) and no already-collected entity has the exact same value string —
span overlap with a differing value does not suppress the addition — and the
added entity carries `detection_method = "regex_aggressive"` (the spec's
`pattern_aggressive`) with the fixed confidence 0.70 resp. 0.75.  The second
conjunct pins down the collection order: catalog entities first, then the CPF
loop, then the phone loop, each loop seeing all earlier additions. -/
theorem C9_aggressive_matchers :
    (∀ ty conf expl lo hi es m,
      aggStep ty conf expl lo hi es m =
        if lo ≤ digitCount m.value ∧ digitCount m.value ≤ hi ∧
            (∀ e ∈ es, e.value ≠ m.value) then
          es ++ [{ type := ty, value := m.value, start := m.start,
                   stop := m.stop, confidence := conf,
                   detection_method := "regex_aggressive",
                   explanation := expl }]
        else es) ∧
    (∀ catalogRaw aggCpf aggPhone,
      regexDetectionAggressive catalogRaw aggCpf aggPhone =
        aggPhone.foldl
          (aggStep "TELEFONE" (mkRat 75 100)
            "Padrão agressivo de telefone detectado" 8 11)
          (aggCpf.foldl
            (aggStep "CPF" (mkRat 7 10) "Padrão agressivo de CPF detectado" 9 11)
            ((findAll catalogRaw).map matchToEntity))) := by
  constructor
  · intro ty conf expl lo hi es m
    simp only [aggStep]
    by_cases hdup : (es.any fun e => decide (e.value = m.value)) = true
    · rw [if_pos hdup, if_neg]
      intro hc
      obtain ⟨e, he, heq⟩ := List.any_eq_true.mp hdup
      exact hc.2.2 e he (by simpa using heq)
    · rw [if_neg hdup]
      by_cases hdig : lo ≤ digitCount m.value ∧ digitCount m.value ≤ hi
      · rw [if_pos hdig, if_pos]
        refine ⟨hdig.1, hdig.2, ?_⟩
        intro e he heq
        exact hdup (List.any_eq_true.mpr ⟨e, he, by simpa using heq⟩)
      · rw [if_neg hdig, if_neg]
        intro hc
        exact hdig ⟨hc.1, hc.2.1⟩
  · intro catalogRaw aggCpf aggPhone
    rfl

/-- **C10.**  `min_confidence` is never consulted by any pipeline stage: two
configurations differing only in `min_confidence` produce identical
`DetectionResult`s (same entities, summary and `has_pii`); survival is decided
solely by the `thresholds` map inside `_apply_thresholds`. -/
theorem C10_min_confidence_unused (cfg : DetectionConfig) (text : String)
    (raws : RawInputs) (a b : ℚ) :
    detect { cfg with min_confidence := a } text raws =
      detect { cfg with min_confidence := b } text raws := by
  cases cfg
  rfl

lemma filter_sublist_of_imp {α : Type} (p q : α → Bool)
    (h : ∀ a, p a = true → q a = true) :
    ∀ l : List α, List.Sublist (l.filter p) (l.filter q) := by
  intro l
  induction l with
  | nil => simp
  | cons a l ih =>
    by_cases hp : p a = true
    · rw [List.filter_cons_of_pos hp, List.filter_cons_of_pos (h a hp)]
      exact ih.cons₂ a
    · rw [List.filter_cons_of_neg (by simpa using hp)]
      cases hq : q a
      · rw [List.filter_cons_of_neg (by simp [hq])]
        exact ih
      · rw [List.filter_cons_of_pos hq]
        exact ih.cons a

/-- **C6.**  Threshold filtering is monotone: if every effective per-type
threshold (the per-type entry, falling back to DEFAULT then 0.5) is raised or
kept equal, the survivors of the new run are a sub(list)set of the survivors
of the old run, so the survivor count never increases. -/
theorem C6_threshold_monotone (t1 t2 : ThDict) (es : List Entity)
    (h : ∀ base, effThreshold t1 base ≤ effThreshold t2 base) :
    List.Sublist (applyThresholds t2 es) (applyThresholds t1 es) ∧
    (∀ e ∈ applyThresholds t2 es, e ∈ applyThresholds t1 es) ∧
    (applyThresholds t2 es).length ≤ (applyThresholds t1 es).length := by
  have hsub : List.Sublist (applyThresholds t2 es) (applyThresholds t1 es) := by
    apply filter_sublist_of_imp
    intro e he
    simp only [decide_eq_true_eq] at he ⊢
    exact le_trans (h (baseTypeOf e.type)) he
  exact ⟨hsub, fun e he => hsub.mem he, hsub.length_le⟩

lemma hasOverlapM_symm (a b : PMatch) : hasOverlapM a b = hasOverlapM b a := by
  simp only [hasOverlapM]
  exact decide_eq_decide.mpr (by tauto)

lemma dedup_fold_pairwise (rest : List PMatch) :
    ∀ acc : List PMatch,
      acc.Pairwise (fun a b => hasOverlapM a b = false) →
      (rest.foldl
        (fun result m =>
          if result.any (fun existing => hasOverlapM m existing) then result
          else result ++ [m]) acc).Pairwise
        (fun a b => hasOverlapM a b = false) := by
  induction rest with
  | nil =>
    intro acc h
    simpa using h
  | cons m rest ih =>
    intro acc hacc
    simp only [List.foldl_cons]
    by_cases hany : (acc.any fun existing => hasOverlapM m existing) = true
    · rw [if_pos hany]
      exact ih acc hacc
    · rw [if_neg hany]
      apply ih
      rw [List.pairwise_append]
      refine ⟨hacc, List.pairwise_singleton _ _, ?_⟩
      intro a ha b hb
      have hb' : b = m := by simpa using hb
      subst hb'
      have hma : hasOverlapM b a = false := by
        cases hx : hasOverlapM b a
        · rfl
        · exact absurd (List.any_eq_true.mpr ⟨a, ha, hx⟩) hany
      rw [hasOverlapM_symm]
      exact hma

/-- **C1, amended.**  What the deduplication logic actually guarantees: after
`BrazilianPatterns._deduplicate_matches` no two surviving catalog matches have
intersecting `[start, end)` spans (across all types).  The aggressive and
anti-false-negative additions are deduplicated by exact value string only, so
the fused and final lists can contain two same-base-type entities with
intersecting spans, neither of which is `hybrid` (see the counterexample). -/
theorem C1_catalog_dedup_no_overlap (ms : List PMatch) :
    (deduplicateMatches ms).Pairwise (fun a b => hasOverlapM a b = false) := by
  unfold deduplicateMatches
  exact dedup_fold_pairwise (stSort leKey ms) [] List.Pairwise.nil

/-- An all-empty entity, used only as the default of `List.getD`. -/
def nullEntity : Entity :=
  { type := "", value := "", start := 0, stop := 0, confidence := mkRat 0 1 }

/-- The raw regex scans of the pattern catalog on the 15-character text
`"(61) 99999-8888"`, in `find_all`'s iteration order.  Only three catalog
patterns match:
* TELEFONE `\(?\d{2}\)?\s*9?\d{4}[-.\s]?\d{4}\b` ("Telefone com DDD",
  confidence 0.85) matches the whole text, span `[0, 15)`;
* TELEFONE `\b9?\d{4}[-.\s]?\d{4}\b` ("Telefone sem DDD", 0.6) matches
  `"99999-8888"`, span `[5, 15)`;
* CELULAR `\b(?:\+?55\s?)?\(?\d{2}\)?\s*9\d{4}[-.\s]?\d{4}\b` ("Celular com
  DDI opcional", 0.9) matches `"61) 99999-8888"`, span `[1, 15)` (the word
  boundary cannot sit before the parenthesis).
No CPF/CNPJ/EMAIL/CEP/RG/CNH/date/plate/card pattern matches this text. -/
def c1CatalogRaw : List PMatch :=
  [{ type := "TELEFONE", value := "(61) 99999-8888", start := 0, stop := 15,
     confidence := mkRat 85 100, description := "Telefone com DDD",
     requires_validation := false, priority := 1 },
   { type := "TELEFONE", value := "99999-8888", start := 5, stop := 15,
     confidence := mkRat 6 10, description := "Telefone sem DDD",
     requires_validation := false, priority := 3 },
   { type := "CELULAR", value := "61) 99999-8888", start := 1, stop := 15,
     confidence := mkRat 9 10, description := "Celular com DDI opcional",
     requires_validation := false, priority := 1 }]

/-- All regex-layer inputs of `detect` on `"(61) 99999-8888"`.  The aggressive
CPF expression has no match (no 9-digit group); the aggressive phone
expression `\b(?:\d{4,5}[-\s]?\d{4}|\d{2}[\)]\s?\d{4,5}[-\s]?\d{4})\b`
matches via its second alternative at span `[1, 15)` with value
`"61) 99999-8888"`.  No external model is loaded, and the text contains no
keyword anchor, so every anti-false-negative scan is empty. -/
def c1Raws : RawInputs :=
  { catalogRaw := c1CatalogRaw
    aggCpf := []
    aggPhone := [{ value := "61) 99999-8888", start := 1, stop := 15 }]
    bertModel := false
    bertMatches := []
    antiFN := { ctxRaw := [], numberRaw := [], cpfCtxRaw := [], nameRaw := [] } }

/-- The result of the balanced-mode pipeline on `"(61) 99999-8888"`. -/
def c1Result : DetectionResult :=
  detect (getConfigForMode DetectionMode.balanced) "(61) 99999-8888" c1Raws

/-- **C1, counterexample.**  On the text `"(61) 99999-8888"` in balanced mode
the final entity list contains two entities of base type TELEFONE with
intersecting spans `[0, 15)` and `[1, 15)`, and neither has
`detection_method = "hybrid"`: the catalog dedup removes overlaps only among
catalog matches, while the aggressive phone hit `"61) 99999-8888"` is
deduplicated by exact value only, differs from `"(61) 99999-8888"`, and both
survive validation (both clean to the valid celular number `61999998888`) and
the 0.4 TELEFONE threshold.  This refutes the claimed no-overlap invariant
both after fusion and in the final returned list. -/
theorem C1_counterexample :
    c1Result.entities.length = 2 ∧
    baseTypeOf (c1Result.entities.getD 0 nullEntity).type = "TELEFONE" ∧
    baseTypeOf (c1Result.entities.getD 1 nullEntity).type = "TELEFONE" ∧
    hasOverlapE (c1Result.entities.getD 0 nullEntity)
      (c1Result.entities.getD 1 nullEntity) = true ∧
    (c1Result.entities.getD 0 nullEntity).detection_method ≠ "hybrid" ∧
    (c1Result.entities.getD 1 nullEntity).detection_method ≠ "hybrid" := by
  decide

lemma eff_strict_le_precise (base : String) :
    effThreshold (getConfigForMode DetectionMode.strict).thresholds base ≤
      effThreshold (getConfigForMode DetectionMode.precise).thresholds base := by
  by_cases h1 : base = "CPF"
  · subst h1; decide
  by_cases h2 : base = "CNPJ"
  · subst h2; decide
  by_cases h3 : base = "TELEFONE"
  · subst h3; decide
  by_cases h4 : base = "CELULAR"
  · subst h4; decide
  by_cases h5 : base = "EMAIL"
  · subst h5; decide
  by_cases h6 : base = "CEP"
  · subst h6; decide
  by_cases h7 : base = "NOME"
  · subst h7; decide
  by_cases h8 : base = "DEFAULT"
  · subst h8; decide
  have e1 : dictGet (getConfigForMode DetectionMode.strict).thresholds base =
      none := by
    simp [getConfigForMode, dictGet, h1, h2, h3, h4, h5, h6, h7, h8]
  have e2 : dictGet (getConfigForMode DetectionMode.precise).thresholds base =
      none := by
    simp [getConfigForMode, dictGet, h1, h2, h3, h4, h5, h6, h7, h8]
  unfold effThreshold
  rw [e1, e2]
  decide

/-- Witness for C6: the precise thresholds dominate the strict thresholds
pointwise, so the precise run on a concrete entity keeps no more entities. -/
theorem C6_threshold_monotone_witness :
    (applyThresholds (getConfigForMode DetectionMode.precise).thresholds
        [c3Entity]).length ≤
      (applyThresholds (getConfigForMode DetectionMode.strict).thresholds
        [c3Entity]).length :=
  (C6_threshold_monotone _ _ [c3Entity] eff_strict_le_precise).2.2

/-- `_validate_consistency` treats an entity identically in precise and strict
mode, except that an invalid CPF/CNPJ entity is dropped in precise mode. -/
lemma valOne_precise_eq_or_nil (e : Entity) :
    valOne DetectionMode.precise e = valOne DetectionMode.strict e ∨
      valOne DetectionMode.precise e = [] := by
  cases hv : validatorsFor (baseTypeOf e.type) with
  | none =>
    left
    simp only [valOne, hv]
  | some v =>
    have hval' : (v e.value).is_valid = true ∨ (v e.value).is_valid = false := by
      cases (v e.value).is_valid
      · right; rfl
      · left; rfl
    rcases hval' with hval | hval
    · left
      simp only [valOne, hv]
      simp [hval]
    · by_cases hbase : baseTypeOf e.type = "CPF" ∨ baseTypeOf e.type = "CNPJ"
      · right
        simp only [valOne, hv]
        simp [hval, hbase]
      · left
        simp only [valOne, hv]
        simp [hval, hbase]

lemma per_entity_precise_le_strict (e : Entity) :
    ((valOne DetectionMode.precise e).filter fun x =>
      effThreshold (getConfigForMode DetectionMode.precise).thresholds
        (baseTypeOf x.type) ≤ x.confidence).length ≤
    ((valOne DetectionMode.strict e).filter fun x =>
      effThreshold (getConfigForMode DetectionMode.strict).thresholds
        (baseTypeOf x.type) ≤ x.confidence).length := by
  rcases valOne_precise_eq_or_nil e with heq | hnil
  · rw [heq]
    refine List.Sublist.length_le (filter_sublist_of_imp _ _ ?_ _)
    intro x hx
    simp only [decide_eq_true_eq] at hx ⊢
    exact le_trans (eff_strict_le_precise (baseTypeOf x.type)) hx
  · rw [hnil]
    simp

lemma validate_threshold_precise_le_strict (es : List Entity) :
    (applyThresholds (getConfigForMode DetectionMode.precise).thresholds
      (validateConsistency DetectionMode.precise es)).length ≤
    (applyThresholds (getConfigForMode DetectionMode.strict).thresholds
      (validateConsistency DetectionMode.strict es)).length := by
  induction es with
  | nil => simp [validateConsistency, applyThresholds]
  | cons e es ih =>
    have hsplit : ∀ m th, applyThresholds th (validateConsistency m (e :: es)) =
        (valOne m e).filter (fun x =>
          decide (effThreshold th (baseTypeOf x.type) ≤ x.confidence)) ++
        applyThresholds th (validateConsistency m es) := by
      intro m th
      simp [validateConsistency, applyThresholds]
    rw [hsplit, hsplit]
    simp only [List.length_append]
    exact Nat.add_le_add (per_entity_precise_le_strict e) ih

lemma detect_total_entities (config : DetectionConfig) (text : String)
    (raws : RawInputs) :
    (detect config text raws).total_entities =
      (detectEntities config text raws).length := by
  unfold detect detectEntities
  by_cases h : text = "" ∨ pyStrip text = ""
  · rw [if_pos h, if_pos h]
    rfl
  · rw [if_neg h, if_neg h]

/-- **C7.**  For every input text and the same regex-layer inputs, the strict
preset yields at least as many entities as the precise preset: the stages
before validation do not depend on the mode, validation in strict mode keeps
a superset of what precise mode keeps (invalid CPF/CNPJ entities are halved
and kept instead of dropped, everything else is treated identically), and
every strict threshold is at most the corresponding precise threshold.  In
particular this holds for the spec's ambiguous text `"Número: 99999-8888"`. -/
theorem C7_strict_precise_recall (text : String) (raws : RawInputs) :
    (detect (getConfigForMode DetectionMode.precise) text raws).total_entities ≤
      (detect (getConfigForMode DetectionMode.strict) text raws).total_entities := by
  rw [detect_total_entities, detect_total_entities]
  unfold detectEntities
  by_cases h : text = "" ∨ pyStrip text = ""
  · rw [if_pos h, if_pos h]
  · rw [if_neg h, if_neg h]
    exact validate_threshold_precise_le_strict _

/-! ## Fusion characterization (for claim C5) -/

/-- All fields of `b` except confidence and detection method agree with `a`:
in particular the span boundaries `[start, stop)` are `a`'s. -/
def entSameCore (a b : Entity) : Prop :=
  b.type = a.type ∧ b.value = a.value ∧ b.start = a.start ∧ b.stop = a.stop ∧
  b.validation_status = a.validation_status ∧
  b.validation_message = a.validation_message ∧
  b.explanation = a.explanation

lemma entSameCore_refl (a : Entity) : entSameCore a a :=
  ⟨rfl, rfl, rfl, rfl, rfl, rfl, rfl⟩

/-- The confidence/method clause of the fusion contract: a pattern entity is
either untouched, or its confidence was raised to the confidence of some
overlapping external-model hit and its method relabeled `hybrid`. -/
def mergeConfClause (full : List Entity) (a b : Entity) : Prop :=
  (b.confidence = a.confidence ∧ b.detection_method = a.detection_method) ∨
  (a.confidence < b.confidence ∧ b.detection_method = "hybrid" ∧
    ∃ m ∈ full, hasOverlapE m a = true ∧ b.confidence = m.confidence)

/-- The invariant carried through `_merge_detections`: `cur` is `orig` with
possibly-raised confidences (indexing through `getD` with the null entity as
an out-of-range default). -/
def MergeInv (full orig cur : List Entity) : Prop :=
  cur.length = orig.length ∧
  ∀ i, i < orig.length →
    entSameCore (orig.getD i nullEntity) (cur.getD i nullEntity) ∧
    mergeConfClause full (orig.getD i nullEntity) (cur.getD i nullEntity)

lemma MergeInv_refl (full orig : List Entity) : MergeInv full orig orig :=
  ⟨rfl, fun _ _ => ⟨entSameCore_refl _, Or.inl ⟨rfl, rfl⟩⟩⟩

lemma mergeStep_snd (b : Entity) (regs : List Entity) :
    (mergeStep b regs).2 = regs.any (fun r => hasOverlapE b r) := by
  induction regs with
  | nil => rfl
  | cons r rs ih =>
    simp only [mergeStep, List.any_cons]
    by_cases ho : hasOverlapE b r = true
    · rw [if_pos ho, ho]
      by_cases hc : r.confidence < b.confidence <;> simp [hc]
    · rw [if_neg ho]
      have ho' : hasOverlapE b r = false := by
        cases hx : hasOverlapE b r
        · rfl
        · exact absurd hx ho
      simp [ho', ih]

lemma mergeStep_fst_length (b : Entity) (regs : List Entity) :
    (mergeStep b regs).1.length = regs.length := by
  induction regs with
  | nil => rfl
  | cons r rs ih =>
    simp only [mergeStep]
    by_cases ho : hasOverlapE b r = true
    · rw [if_pos ho]
      by_cases hc : r.confidence < b.confidence <;> simp [hc]
    · rw [if_neg ho]
      simp [ih]

lemma mergeStep_fst_getD (b : Entity) (regs : List Entity) :
    ∀ i, i < regs.length →
      (mergeStep b regs).1.getD i nullEntity = regs.getD i nullEntity ∨
      (hasOverlapE b (regs.getD i nullEntity) = true ∧
        (regs.getD i nullEntity).confidence < b.confidence ∧
        (mergeStep b regs).1.getD i nullEntity =
          { regs.getD i nullEntity with
              confidence := b.confidence
              detection_method := "hybrid" }) := by
  induction regs with
  | nil =>
    intro i h
    exact absurd h (by simp)
  | cons r rs ih =>
    intro i h
    simp only [mergeStep]
    by_cases ho : hasOverlapE b r = true
    · rw [if_pos ho]
      by_cases hc : r.confidence < b.confidence
    -- inner case split
      · rw [if_pos hc]
        cases i with
        | zero => exact Or.inr ⟨by simpa using ho, by simpa using hc, by simp⟩
        | succ j => exact Or.inl (by simp)
      · rw [if_neg hc]
        exact Or.inl rfl
    · rw [if_neg ho]
      cases i with
      | zero => exact Or.inl (by simp)
      | succ j =>
        have hj : j < rs.length := by simpa using h
        rcases ih j hj with heq | ⟨h1, h2, h3⟩
        · exact Or.inl (by simpa using heq)
        · refine Or.inr ⟨by simpa using h1, by simpa using h2, ?_⟩
          simpa using h3

lemma hasOverlapE_congr (b x y : Entity) (h1 : y.start = x.start)
    (h2 : y.stop = x.stop) : hasOverlapE b y = hasOverlapE b x := by
  simp [hasOverlapE, h1, h2]

lemma any_overlap_congr (b : Entity) (orig cur : List Entity)
    (hlen : cur.length = orig.length)
    (hsp : ∀ i, i < orig.length →
      (cur.getD i nullEntity).start = (orig.getD i nullEntity).start ∧
      (cur.getD i nullEntity).stop = (orig.getD i nullEntity).stop) :
    cur.any (fun r => hasOverlapE b r) = orig.any (fun r => hasOverlapE b r) := by
  rcases hc : cur.any (fun r => hasOverlapE b r) with _ | _
  · rcases hn : orig.any (fun r => hasOverlapE b r) with _ | _
    · rfl
    · exfalso
      obtain ⟨r, hr, hor⟩ := List.any_eq_true.mp hn
      obtain ⟨⟨i, hi⟩, hget⟩ := List.mem_iff_get.mp hr
      have hi' : i < cur.length := by omega
      have hod : orig.getD i nullEntity = r := by
        rw [List.getD_eq_get orig nullEntity hi, hget]
      have hcur : hasOverlapE b (cur.getD i nullEntity) = true := by
        rw [hasOverlapE_congr b (orig.getD i nullEntity) (cur.getD i nullEntity)
          (hsp i hi).1 (hsp i hi).2, hod]
        exact hor
      have : cur.any (fun r => hasOverlapE b r) = true :=
        List.any_eq_true.mpr ⟨cur.getD i nullEntity,
          List.getD_eq_get cur nullEntity hi' ▸ List.get_mem cur i hi', hcur⟩
      rw [hc] at this
      exact Bool.false_ne_true this
  · obtain ⟨r, hr, hor⟩ := List.any_eq_true.mp hc
    obtain ⟨⟨i, hi⟩, hget⟩ := List.mem_iff_get.mp hr
    have hi0 : i < orig.length := by omega
    have hcd : cur.getD i nullEntity = r := by
      rw [List.getD_eq_get cur nullEntity hi, hget]
    have horig : hasOverlapE b (orig.getD i nullEntity) = true := by
      rw [← hasOverlapE_congr b (orig.getD i nullEntity) (cur.getD i nullEntity)
        (hsp i hi0).1 (hsp i hi0).2, hcd]
      exact hor
    symm
    exact List.any_eq_true.mpr ⟨orig.getD i nullEntity,
      List.getD_eq_get orig nullEntity hi0 ▸ List.get_mem orig i hi0, horig⟩

lemma MergeInv_step (full orig cur : List Entity) (b : Entity)
    (hb : b ∈ full) (hinv : MergeInv full orig cur) :
    MergeInv full orig (mergeStep b cur).1 := by
  obtain ⟨hlen, hrel⟩ := hinv
  refine ⟨by rw [mergeStep_fst_length, hlen], ?_⟩
  intro i h
  have hic : i < cur.length := by rw [hlen]; exact h
  obtain ⟨hcore, hconf⟩ := hrel i h
  rcases mergeStep_fst_getD b cur i hic with heq | ⟨ho, hlt, heq⟩
  · rw [heq]
    exact ⟨hcore, hconf⟩
  · rw [heq]
    obtain ⟨ht, hv, hs1, hs2, hvs, hvm, hex⟩ := hcore
    refine ⟨⟨ht, hv, hs1, hs2, hvs, hvm, hex⟩, ?_⟩
    have hob : hasOverlapE b (orig.getD i nullEntity) = true := by
      rw [← hasOverlapE_congr b (orig.getD i nullEntity) (cur.getD i nullEntity)
        hs1 hs2]
      exact ho
    rcases hconf with ⟨hcs, _⟩ | ⟨hraise, _, _⟩
    · exact Or.inr ⟨by rw [← hcs]; exact hlt, rfl, b, hb, hob, rfl⟩
    · exact Or.inr ⟨lt_trans hraise hlt, rfl, b, hb, hob, rfl⟩

lemma merge_fold (full : List Entity) :
    ∀ (bs : List Entity), (∀ b ∈ bs, b ∈ full) →
    ∀ (orig cur acc : List Entity), MergeInv full orig cur →
      MergeInv full orig
        (bs.foldl (fun st b =>
          let p := mergeStep b st.1
          if p.2 then (p.1, st.2) else (p.1, st.2 ++ [b])) (cur, acc)).1 ∧
      (bs.foldl (fun st b =>
          let p := mergeStep b st.1
          if p.2 then (p.1, st.2) else (p.1, st.2 ++ [b])) (cur, acc)).2 =
        acc ++ bs.filter (fun b => !(orig.any (fun r => hasOverlapE b r))) := by
  intro bs
  induction bs with
  | nil =>
    intro _ orig cur acc hinv
    exact ⟨hinv, by simp⟩
  | cons b bs ih =>
    intro hmem orig cur acc hinv
    have hb : b ∈ full := hmem b (List.mem_cons_self b bs)
    have hinv' := MergeInv_step full orig cur b hb hinv
    have hred : (mergeStep b cur).2 = orig.any (fun r => hasOverlapE b r) := by
      rw [mergeStep_snd]
      exact any_overlap_congr b orig cur hinv.1
        (fun i h => ⟨((hinv.2 i h).1).2.2.1, ((hinv.2 i h).1).2.2.2.1⟩)
    simp only [List.foldl_cons]
    by_cases hany : orig.any (fun r => hasOverlapE b r) = true
    · have hcond : (mergeStep b cur).2 = true := by rw [hred]; exact hany
      rw [if_pos hcond]
      have := ih (fun x hx => hmem x (List.mem_cons_of_mem b hx))
        orig (mergeStep b cur).1 acc hinv'
      refine ⟨this.1, ?_⟩
      rw [this.2, List.filter_cons]
      simp [hany]
    · have hany' : orig.any (fun r => hasOverlapE b r) = false := by
        cases hx : orig.any (fun r => hasOverlapE b r)
        · rfl
        · exact absurd hx hany
      have hcond : (mergeStep b cur).2 = false := by rw [hred]; exact hany'
      rw [if_neg (by rw [hcond]; exact Bool.false_ne_true)]
      have := ih (fun x hx => hmem x (List.mem_cons_of_mem b hx))
        orig (mergeStep b cur).1 (acc ++ [b]) hinv'
      refine ⟨this.1, ?_⟩
      rw [this.2, List.filter_cons]
      simp [hany']

/-- Modelled from the spec (claim C5): the position of the first pattern hit
that a model hit `b` overlaps, scanning the pattern list in order. -/
def firstOverlapIdx (b : Entity) : List Entity → Option Nat
  | [] => none
  | r :: rs =>
    if hasOverlapE b r then some 0
    else (firstOverlapIdx b rs).map (fun i => i + 1)

/-- Modelled from the spec (claim C5): absorb one external-model hit into the
pattern list.  A hit overlapping no pattern hit is to be appended (`false`);
otherwise it is redundant (`true`) and, when its confidence exceeds the first
overlapping pattern hit\x27s current confidence, that pattern hit\x27s
confidence is raised to the model value and its detection method relabeled
`hybrid`. -/
def specAbsorb (regs : List Entity) (b : Entity) : List Entity × Bool :=
  match firstOverlapIdx b regs with
  | none => (regs, false)
  | some i =>
    let r := regs.getD i nullEntity
    (if r.confidence < b.confidence then
       regs.set i { r with confidence := b.confidence,
                           detection_method := "hybrid" }
     else regs, true)

/-- Modelled from the spec (claim C5): the fusion stage in full — every
pattern hit is included (in order, spans intact), the model hits are absorbed
in order via `specAbsorb`, and exactly the model hits overlapping no pattern
hit are appended, in order. -/
def specMerge (regexMatches bertMatches : List Entity) : List Entity :=
  (bertMatches.foldl (fun regs b => (specAbsorb regs b).1) regexMatches) ++
    bertMatches.filter
      (fun b => !(regexMatches.any (fun r => hasOverlapE b r)))

lemma mergeStep_eq_specAbsorb (b : Entity) :
    ∀ regs : List Entity, mergeStep b regs = specAbsorb regs b := by
  intro regs
  induction regs with
  | nil => rfl
  | cons r rs ih =>
    by_cases ho : hasOverlapE b r = true
    · have hfi : firstOverlapIdx b (r :: rs) = some 0 := by
        simp [firstOverlapIdx, ho]
      simp only [mergeStep, specAbsorb, hfi, if_pos ho]
      by_cases hc : r.confidence < b.confidence <;>
        simp [hc, List.getD_cons_zero, List.set]
    · rcases hfo : firstOverlapIdx b rs with _ | i
      · have hfi : firstOverlapIdx b (r :: rs) = none := by
          simp [firstOverlapIdx, ho, hfo]
        have hrs : mergeStep b rs = (rs, false) := by
          rw [ih]
          simp [specAbsorb, hfo]
        simp [mergeStep, specAbsorb, hfi, ho, hrs]
      · have hfi : firstOverlapIdx b (r :: rs) = some (i + 1) := by
          simp [firstOverlapIdx, ho, hfo]
        have hrs : mergeStep b rs = specAbsorb rs b := ih
        simp only [mergeStep, specAbsorb, hfi, if_neg ho, hfo] at hrs ⊢
        rw [hrs]
        simp only [List.getD_cons_succ, List.set_cons_succ]
        split_ifs <;> rfl

lemma merge_fold_fst :
    ∀ (bs : List Entity) (cur acc : List Entity),
      (bs.foldl (fun st b =>
          let p := mergeStep b st.1
          if p.2 then (p.1, st.2) else (p.1, st.2 ++ [b])) (cur, acc)).1 =
      bs.foldl (fun regs b => (mergeStep b regs).1) cur := by
  intro bs
  induction bs with
  | nil => intro cur acc; rfl
  | cons b bs ih =>
    intro cur acc
    simp only [List.foldl_cons]
    by_cases hc : (mergeStep b cur).2 = true
    · rw [if_pos hc]
      exact ih (mergeStep b cur).1 acc
    · rw [if_neg hc]
      exact ih (mergeStep b cur).1 (acc ++ [b])

/-- **C5.**  `_merge_detections` computes exactly the fusion stage as the
spec words it (`specMerge`): every pattern-layer hit is included, in order
and with its span intact; each external-model hit is absorbed in turn —
discarded when it overlaps some pattern hit, and when its confidence exceeds
the first overlapping pattern hit\x27s current confidence, that pattern hit
has its confidence raised to the model value and its detection method
relabeled `hybrid` — and exactly the model hits overlapping no pattern hit
are appended, in order.  Stated as an equation against the spec-side
function, so the absorb clause is forced in both directions. -/
theorem C5_fusion_characterization (regexMatches bertMatches : List Entity) :
    mergeDetections regexMatches bertMatches =
      specMerge regexMatches bertMatches := by
  have h := merge_fold bertMatches bertMatches (fun _ hb => hb)
    regexMatches regexMatches [] (MergeInv_refl _ _)
  have hfst := merge_fold_fst bertMatches regexMatches []
  have hstep : (fun regs b => (mergeStep b regs).1) =
      (fun regs b => (specAbsorb regs b).1) := by
    funext regs b
    rw [mergeStep_eq_specAbsorb]
  simp only [mergeDetections, specMerge]
  rw [h.2, hfst, hstep]
  simp

/-- Concrete fusion inputs exercising the confidence lift: one pattern hit of
confidence 0.5 and one overlapping external-model hit of confidence 0.8. -/
def c5Pat : Entity :=
  { type := "CPF", value := "123", start := 0, stop := 3,
    confidence := mkRat 5 10 }

/-- The model hit for the C5 witness. -/
def c5Mod : Entity :=
  { type := "NOME_PESSOA", value := "abc", start := 1, stop := 4,
    confidence := mkRat 8 10, detection_method := "bert" }

/-- Witness for C5 at the concrete inputs: the characterization instantiates,
and the merged list is exactly the pattern hit raised to the model confidence
0.8 and relabeled `hybrid`, with nothing appended (kernel-evaluated). -/
theorem C5_fusion_characterization_witness :
    mergeDetections [c5Pat] [c5Mod] = specMerge [c5Pat] [c5Mod] ∧
    mergeDetections [c5Pat] [c5Mod] =
      [{ type := "CPF", value := "123", start := 0, stop := 3,
         confidence := mkRat 8 10, detection_method := "hybrid" }] :=
  ⟨C5_fusion_characterization [c5Pat] [c5Mod], by decide⟩

/-! ## Entity bounds (for claim C4) -/

lemma qmul_eq_mul (a b : ℚ) : qmul a b = a * b := by
  unfold qmul
  rw [Rat.mkRat_eq_div]
  push_cast
  rw [← div_mul_div_comm, Rat.num_div_den, Rat.num_div_den]

lemma cpfValidate_conf_range (s : String) :
    0 ≤ (cpfValidate s).confidence ∧ (cpfValidate s).confidence ≤ 1 := by
  simp only [cpfValidate, cpfValidateClean]
  split_ifs <;> dsimp only <;> exact ⟨by decide, by decide⟩

lemma cnpjValidate_conf_range (s : String) :
    0 ≤ (cnpjValidate s).confidence ∧ (cnpjValidate s).confidence ≤ 1 := by
  simp only [cnpjValidate, cnpjValidateClean]
  split_ifs <;> dsimp only <;> exact ⟨by decide, by decide⟩

lemma phoneValidate_conf_range (s : String) :
    0 ≤ (phoneValidate s).confidence ∧ (phoneValidate s).confidence ≤ 1 := by
  simp only [phoneValidate]
  split_ifs <;> dsimp only <;> exact ⟨by decide, by decide⟩

lemma emailValidate_conf_range (s : String) :
    0 ≤ (emailValidate s).confidence ∧ (emailValidate s).confidence ≤ 1 := by
  simp only [emailValidate]
  split_ifs <;> dsimp only <;> exact ⟨by decide, by decide⟩

lemma cepValidate_conf_range (s : String) :
    0 ≤ (cepValidate s).confidence ∧ (cepValidate s).confidence ≤ 1 := by
  simp only [cepValidate]
  split_ifs <;> dsimp only <;> exact ⟨by decide, by decide⟩

lemma validatorsFor_conf_range (base : String) (v : String → ValidationResult)
    (h : validatorsFor base = some v) (s : String) :
    0 ≤ (v s).confidence ∧ (v s).confidence ≤ 1 := by
  unfold validatorsFor at h
  by_cases h1 : base = "CPF"
  · rw [if_pos h1] at h
    injection h with h
    subst h
    exact cpfValidate_conf_range s
  rw [if_neg h1] at h
  by_cases h2 : base = "CNPJ"
  · rw [if_pos h2] at h
    injection h with h
    subst h
    exact cnpjValidate_conf_range s
  rw [if_neg h2] at h
  by_cases h3 : base = "TELEFONE"
  · rw [if_pos h3] at h
    injection h with h
    subst h
    exact phoneValidate_conf_range s
  rw [if_neg h3] at h
  by_cases h4 : base = "CELULAR"
  · rw [if_pos h4] at h
    injection h with h
    subst h
    exact phoneValidate_conf_range s
  rw [if_neg h4] at h
  by_cases h5 : base = "EMAIL"
  · rw [if_pos h5] at h
    injection h with h
    subst h
    exact emailValidate_conf_range s
  rw [if_neg h5] at h
  by_cases h6 : base = "CEP"
  · rw [if_pos h6] at h
    injection h with h
    subst h
    exact cepValidate_conf_range s
  rw [if_neg h6] at h
  exact absurd h (by simp)

lemma stInsert_mem (le : PMatch → PMatch → Bool) (x y : PMatch) :
    ∀ l : List PMatch, y ∈ stInsert le x l → y = x ∨ y ∈ l := by
  intro l
  induction l with
  | nil =>
    intro h
    simp [stInsert] at h
    exact Or.inl h
  | cons z zs ih =>
    intro h
    simp only [stInsert] at h
    split_ifs at h
    · rcases List.mem_cons.mp h with h1 | h1
      · exact Or.inl h1
      · exact Or.inr h1
    · rcases List.mem_cons.mp h with h1 | h1
      · exact Or.inr (h1 ▸ List.mem_cons_self z zs)
      · rcases ih h1 with h2 | h2
        · exact Or.inl h2
        · exact Or.inr (List.mem_cons_of_mem z h2)

lemma stSort_mem (le : PMatch → PMatch → Bool) :
    ∀ (l : List PMatch) (y : PMatch), y ∈ stSort le l → y ∈ l := by
  intro l
  induction l with
  | nil => intro y h; simpa [stSort] using h
  | cons x xs ih =>
    intro y h
    simp only [stSort] at h
    rcases stInsert_mem le x y (stSort le xs) h with h1 | h1
    · exact h1 ▸ List.mem_cons_self x xs
    · exact List.mem_cons_of_mem x (ih y h1)

lemma dedup_greedy_mem (rest : List PMatch) :
    ∀ (acc : List PMatch) (y : PMatch),
      y ∈ rest.foldl
        (fun result m =>
          if result.any (fun existing => hasOverlapM m existing) then result
          else result ++ [m]) acc →
      y ∈ acc ∨ y ∈ rest := by
  induction rest with
  | nil =>
    intro acc y h
    exact Or.inl h
  | cons m rest ih =>
    intro acc y h
    simp only [List.foldl_cons] at h
    split_ifs at h
    · rcases ih acc y h with h1 | h1
      · exact Or.inl h1
      · exact Or.inr (List.mem_cons_of_mem m h1)
    · rcases ih (acc ++ [m]) y h with h1 | h1
      · rcases List.mem_append.mp h1 with h2 | h2
        · exact Or.inl h2
        · exact Or.inr ((List.mem_singleton.mp h2) ▸ List.mem_cons_self m rest)
      · exact Or.inr (List.mem_cons_of_mem m h1)

lemma deduplicateMatches_subset (ms : List PMatch) (y : PMatch)
    (h : y ∈ deduplicateMatches ms) : y ∈ ms := by
  unfold deduplicateMatches at h
  rcases dedup_greedy_mem (stSort leKey ms) [] y h with h1 | h1
  · simp at h1
  · exact stSort_mem leKey ms y h1

/-- A generic preservation principle for the entity-accumulating `foldl`s of
the pipeline. -/
lemma foldl_preserve {β : Type} (P : Entity → Prop) (Q : β → Prop)
    (step : List Entity → β → List Entity)
    (hstep : ∀ es m, Q m → (∀ e ∈ es, P e) → ∀ e ∈ step es m, P e) :
    ∀ (ms : List β), (∀ m ∈ ms, Q m) →
    ∀ (es : List Entity), (∀ e ∈ es, P e) →
    ∀ e ∈ ms.foldl step es, P e := by
  intro ms
  induction ms with
  | nil =>
    intro _ es hes e he
    exact hes e he
  | cons m ms ih =>
    intro hms es hes e he
    simp only [List.foldl_cons] at he
    exact ih (fun x hx => hms x (List.mem_cons_of_mem m hx)) (step es m)
      (hstep es m (hms m (List.mem_cons_self m ms)) hes) e he

/-- Well-formedness of an entity for a text of length `L`:
`0 ≤ start < end ≤ L` and confidence in `[0, 1]`. -/
def EntityOk (L : Nat) (e : Entity) : Prop :=
  e.start < e.stop ∧ e.stop ≤ L ∧ 0 ≤ e.confidence ∧ e.confidence ≤ 1

/-- Well-formedness of a raw catalog match. -/
def PMatchOk (L : Nat) (m : PMatch) : Prop :=
  m.start < m.stop ∧ m.stop ≤ L ∧ 0 ≤ m.confidence ∧ m.confidence ≤ 1

/-- Well-formedness of a raw span-only match. -/
def RawOk (L : Nat) (m : RawMatch) : Prop :=
  m.start < m.stop ∧ m.stop ≤ L

/-- Well-formedness of a raw contextual match. -/
def CtxOk (L : Nat) (m : CtxRaw) : Prop :=
  m.start < m.stop ∧ m.stop ≤ L ∧ 0 ≤ m.confidence ∧ m.confidence ≤ 1

/-- Well-formedness of every regex-layer input of one `detect` call.  Spans of
regex matches (and of their capture groups) always lie inside the scanned
text and are nonempty for these patterns, and every confidence handed to the
pipeline is a probability; this records exactly those facts. -/
def RawInputsOk (L : Nat) (raws : RawInputs) : Prop :=
  (∀ m ∈ raws.catalogRaw, PMatchOk L m) ∧
  (∀ m ∈ raws.aggCpf, RawOk L m) ∧
  (∀ m ∈ raws.aggPhone, RawOk L m) ∧
  (∀ e ∈ raws.bertMatches, EntityOk L e) ∧
  (∀ m ∈ raws.antiFN.ctxRaw, CtxOk L m) ∧
  (∀ m ∈ raws.antiFN.numberRaw, RawOk L m) ∧
  (∀ m ∈ raws.antiFN.cpfCtxRaw, RawOk L m) ∧
  (∀ m ∈ raws.antiFN.nameRaw, RawOk L m)

lemma aggStep_preserve (L : Nat) (ty : String) (conf : ℚ) (expl : String)
    (lo hi : Nat) (hconf : 0 ≤ conf ∧ conf ≤ 1) :
    ∀ es m, RawOk L m → (∀ e ∈ es, EntityOk L e) →
      ∀ e ∈ aggStep ty conf expl lo hi es m, EntityOk L e := by
  intro es m hm hes e he
  simp only [aggStep] at he
  split_ifs at he <;>
    first
      | exact hes e he
      | (rcases List.mem_append.mp he with h1 | h1
         · exact hes e h1
         · rw [List.mem_singleton.mp h1]
           exact ⟨hm.1, hm.2, hconf.1, hconf.2⟩)

lemma regexDetectionAggressive_ok (L : Nat) (catalogRaw : List PMatch)
    (aggCpf aggPhone : List RawMatch)
    (h1 : ∀ m ∈ catalogRaw, PMatchOk L m)
    (h2 : ∀ m ∈ aggCpf, RawOk L m)
    (h3 : ∀ m ∈ aggPhone, RawOk L m) :
    ∀ e ∈ regexDetectionAggressive catalogRaw aggCpf aggPhone, EntityOk L e := by
  unfold regexDetectionAggressive
  apply foldl_preserve (EntityOk L) (RawOk L) _
    (aggStep_preserve L _ _ _ _ _ ⟨by decide, by decide⟩) aggPhone h3
  apply foldl_preserve (EntityOk L) (RawOk L) _
    (aggStep_preserve L _ _ _ _ _ ⟨by decide, by decide⟩) aggCpf h2
  intro e he
  obtain ⟨m, hm, hme⟩ := List.mem_map.mp he
  have := h1 m (deduplicateMatches_subset catalogRaw m hm)
  rw [← hme]
  exact ⟨this.1, this.2.1, this.2.2.1, this.2.2.2⟩

lemma mergeStep_fst_ok (L : Nat) (b : Entity)
    (hb : 0 ≤ b.confidence ∧ b.confidence ≤ 1) :
    ∀ regs, (∀ r ∈ regs, EntityOk L r) →
      ∀ e ∈ (mergeStep b regs).1, EntityOk L e := by
  intro regs
  induction regs with
  | nil =>
    intro _ e he
    simp [mergeStep] at he
  | cons r rs ih =>
    intro hregs e he
    have hr := hregs r (List.mem_cons_self r rs)
    have hrs : ∀ x ∈ rs, EntityOk L x :=
      fun x hx => hregs x (List.mem_cons_of_mem r hx)
    simp only [mergeStep] at he
    split_ifs at he
    · rcases List.mem_cons.mp he with h1 | h1
      · rw [h1]
        exact ⟨hr.1, hr.2.1, hb.1, hb.2⟩
      · exact hrs e h1
    · rcases List.mem_cons.mp he with h1 | h1
      · exact h1 ▸ hr
      · exact hrs e h1
    · rcases List.mem_cons.mp he with h1 | h1
      · exact h1 ▸ hr
      · exact ih hrs e h1

lemma mergeDetections_ok (L : Nat) (regex bert : List Entity)
    (hr : ∀ e ∈ regex, EntityOk L e) (hb : ∀ e ∈ bert, EntityOk L e) :
    ∀ e ∈ mergeDetections regex bert, EntityOk L e := by
  have key : ∀ (bs : List Entity), (∀ e ∈ bs, EntityOk L e) →
      ∀ (cur acc : List Entity), (∀ e ∈ cur, EntityOk L e) →
      (∀ e ∈ acc, EntityOk L e) →
      ∀ e ∈ (bs.foldl (fun st b =>
          let p := mergeStep b st.1
          if p.2 then (p.1, st.2) else (p.1, st.2 ++ [b])) (cur, acc)).1 ++
        (bs.foldl (fun st b =>
          let p := mergeStep b st.1
          if p.2 then (p.1, st.2) else (p.1, st.2 ++ [b])) (cur, acc)).2,
        EntityOk L e := by
    intro bs
    induction bs with
    | nil =>
      intro _ cur acc hcur hacc e he
      rcases List.mem_append.mp he with h1 | h1
      · exact hcur e h1
      · exact hacc e h1
    | cons b bs ih =>
      intro hbs cur acc hcur hacc e he
      have hbOk := hbs b (List.mem_cons_self b bs)
      have hbs' : ∀ x ∈ bs, EntityOk L x :=
        fun x hx => hbs x (List.mem_cons_of_mem b hx)
      have hstep : ∀ x ∈ (mergeStep b cur).1, EntityOk L x :=
        mergeStep_fst_ok L b ⟨hbOk.2.2.1, hbOk.2.2.2⟩ cur hcur
      simp only [List.foldl_cons] at he
      by_cases hc : (mergeStep b cur).2 = true
      · rw [if_pos hc] at he
        exact ih hbs' (mergeStep b cur).1 acc hstep hacc e he
      · rw [if_neg hc] at he
        refine ih hbs' (mergeStep b cur).1 (acc ++ [b]) hstep ?_ e he
        intro x hx
        rcases List.mem_append.mp hx with h1 | h1
        · exact hacc x h1
        · exact (List.mem_singleton.mp h1) ▸ hbOk
  intro e he
  unfold mergeDetections at he
  exact key bert hb regex [] hr (by simp) e he

lemma antiFNFilter_ok (L : Nat) (entities : List Entity) (raw : AntiFNRaw)
    (hes : ∀ e ∈ entities, EntityOk L e)
    (h5 : ∀ m ∈ raw.ctxRaw, CtxOk L m)
    (h6 : ∀ m ∈ raw.numberRaw, RawOk L m)
    (h7 : ∀ m ∈ raw.cpfCtxRaw, RawOk L m)
    (h8 : ∀ m ∈ raw.nameRaw, RawOk L m) :
    ∀ e ∈ antiFNFilter entities raw, EntityOk L e := by
  unfold antiFNFilter
  apply foldl_preserve (EntityOk L) (RawOk L) _ ?hname raw.nameRaw h8
  case hname =>
    intro es m hm hes' e he
    first
      | dsimp only at he
      | skip
    split_ifs at he <;>
      first
        | exact hes' e he
        | (rcases List.mem_append.mp he with h1 | h1
           · exact hes' e h1
           · rw [List.mem_singleton.mp h1]
             refine ⟨hm.1, hm.2, ?_, ?_⟩ <;> dsimp only <;> decide)
  apply foldl_preserve (EntityOk L) (RawOk L) _ ?hcpf raw.cpfCtxRaw h7
  case hcpf =>
    intro es m hm hes' e he
    first
      | dsimp only at he
      | skip
    split_ifs at he <;>
      first
        | exact hes' e he
        | (rcases List.mem_append.mp he with h1 | h1
           · exact hes' e h1
           · rw [List.mem_singleton.mp h1]
             refine ⟨hm.1, hm.2, ?_, ?_⟩ <;> dsimp only <;> decide)
  apply foldl_preserve (EntityOk L) (RawOk L) _ ?hnum raw.numberRaw h6
  case hnum =>
    intro es m hm hes' e he
    first
      | dsimp only at he
      | skip
    split_ifs at he <;>
      first
        | exact hes' e he
        | (rcases List.mem_append.mp he with h1 | h1
           · exact hes' e h1
           · rw [List.mem_singleton.mp h1]
             refine ⟨hm.1, hm.2, ?_, ?_⟩ <;> dsimp only <;> decide)
  have hctx : ∀ c ∈ findContextual raw.ctxRaw,
      c.start < c.stop ∧ c.stop ≤ L ∧ 0 ≤ c.confidence ∧ c.confidence ≤ 1 := by
    intro c hc
    obtain ⟨m, hm, hmc⟩ := List.mem_map.mp hc
    have := h5 m hm
    rw [← hmc]
    exact ⟨this.1, this.2.1, this.2.2.1, this.2.2.2⟩
  apply foldl_preserve (EntityOk L)
    (fun c : CtxMatch =>
      c.start < c.stop ∧ c.stop ≤ L ∧ 0 ≤ c.confidence ∧ c.confidence ≤ 1)
    _ ?hctxstep (findContextual raw.ctxRaw) hctx entities hes
  case hctxstep =>
    intro es m hm hes' e he
    first
      | dsimp only at he
      | skip
    split_ifs at he <;>
      first
        | exact hes' e he
        | (rcases List.mem_append.mp he with h1 | h1
           · exact hes' e h1
           · rw [List.mem_singleton.mp h1]
             exact ⟨hm.1, hm.2.1, hm.2.2.1, hm.2.2.2⟩)

lemma valOne_ok (L : Nat) (mode : DetectionMode) (e : Entity)
    (he : EntityOk L e) : ∀ x ∈ valOne mode e, EntityOk L x := by
  intro x hx
  rcases hv : validatorsFor (baseTypeOf e.type) with _ | v
  · simp only [valOne, hv, List.mem_singleton] at hx
    rw [hx]
    exact he
  · have hvr := validatorsFor_conf_range (baseTypeOf e.type) v hv e.value
    simp only [valOne, hv] at hx
    split_ifs at hx with hvalid hbase hmode
    · simp only [List.mem_singleton] at hx
      rw [hx]
      refine ⟨he.1, he.2.1, ?_, ?_⟩
      · exact le_trans he.2.2.1 le_sup_left
      · exact sup_le he.2.2.2 hvr.2
    · simp only [List.mem_singleton] at hx
      rw [hx]
      refine ⟨he.1, he.2.1, ?_, ?_⟩
      · rw [qmul_eq_mul]
        exact mul_nonneg he.2.2.1 (by norm_num [Rat.mkRat_eq_div])
      · rw [qmul_eq_mul]
        calc e.confidence * mkRat 5 10 ≤ 1 * 1 := by
              apply mul_le_mul he.2.2.2 (by norm_num [Rat.mkRat_eq_div])
                (by norm_num [Rat.mkRat_eq_div]) (by norm_num)
          _ = 1 := by norm_num
    · simp at hx
    · simp only [List.mem_singleton] at hx
      rw [hx]
      exact he

lemma validateConsistency_ok (L : Nat) (mode : DetectionMode)
    (es : List Entity) (hes : ∀ e ∈ es, EntityOk L e) :
    ∀ x ∈ validateConsistency mode es, EntityOk L x := by
  intro x hx
  unfold validateConsistency at hx
  obtain ⟨l, hl, hxl⟩ := List.mem_flatten.mp hx
  obtain ⟨e, he, hel⟩ := List.mem_map.mp hl
  exact valOne_ok L mode e (hes e he) x (hel ▸ hxl)

lemma applyThresholds_ok (L : Nat) (th : ThDict) (es : List Entity)
    (hes : ∀ e ∈ es, EntityOk L e) :
    ∀ x ∈ applyThresholds th es, EntityOk L x := by
  intro x hx
  exact hes x (List.mem_of_mem_filter hx)

/-- **C4.**  For every configuration, text and well-formed regex-layer inputs
(the `re` module guarantees capture spans inside the text, these patterns
cannot produce empty matches, and every confidence fed to the pipeline is a
probability), every entity of the returned `DetectionResult` satisfies
`0 ≤ start < end ≤ len(text)` and `0 ≤ confidence ≤ 1`. -/
theorem C4_entity_bounds (config : DetectionConfig) (text : String)
    (raws : RawInputs) (h : RawInputsOk text.length raws) :
    ∀ e ∈ (detect config text raws).entities, EntityOk text.length e := by
  obtain ⟨h1, h2, h3, h4, h5, h6, h7, h8⟩ := h
  intro e he
  unfold detect at he
  by_cases hempty : text = "" ∨ pyStrip text = ""
  · rw [if_pos hempty] at he
    simp at he
  · rw [if_neg hempty] at he
    simp only at he
    unfold detectEntities at he
    rw [if_neg hempty] at he
    simp only at he
    apply applyThresholds_ok text.length config.thresholds _ ?hval e he
    case hval =>
      set merged :=
        (if config.use_contextual then
          antiFNFilter
            (mergeDetections
              (regexDetectionAggressive raws.catalogRaw raws.aggCpf raws.aggPhone)
              (if config.use_bert ∧ raws.bertModel then raws.bertMatches else []))
            raws.antiFN
        else
          mergeDetections
            (regexDetectionAggressive raws.catalogRaw raws.aggCpf raws.aggPhone)
            (if config.use_bert ∧ raws.bertModel then raws.bertMatches else []))
        with hmerged
      have hbert : ∀ x ∈ (if config.use_bert ∧ raws.bertModel then
          raws.bertMatches else []), EntityOk text.length x := by
        intro x hx
        split_ifs at hx
        · exact h4 x hx
        · simp at hx
      have hmergedOk : ∀ x ∈ merged, EntityOk text.length x := by
        rw [hmerged]
        have hmm := mergeDetections_ok text.length _ _
          (regexDetectionAggressive_ok text.length _ _ _ h1 h2 h3) hbert
        by_cases hctx : config.use_contextual = true
        · rw [if_pos hctx]
          exact antiFNFilter_ok text.length _ raws.antiFN hmm h5 h6 h7 h8
        · rw [if_neg hctx]
          exact hmm
      intro x hx
      split_ifs at hx
      · exact validateConsistency_ok text.length config.mode merged hmergedOk x hx
      · exact hmergedOk x hx

/-- Witness for C4: the concrete balanced-mode run of the C1 input satisfies
the bound conditions, and its first returned entity is well-formed. -/
theorem C4_entity_bounds_witness :
    EntityOk ("(61) 99999-8888".length)
      (c1Result.entities.getD 0 nullEntity) := by
  have hok : RawInputsOk ("(61) 99999-8888".length) c1Raws := by
    refine ⟨?_, ?_, ?_, ?_, ?_, ?_, ?_, ?_⟩ <;> (intro m hm) <;>
      first
        | (fin_cases hm <;> exact ⟨by decide, by decide, by decide, by decide⟩)
        | (fin_cases hm <;> exact ⟨by decide, by decide⟩)
        | simp at hm
  have hmem : c1Result.entities.getD 0 nullEntity ∈ c1Result.entities := by
    decide
  exact C4_entity_bounds (getConfigForMode DetectionMode.balanced)
    "(61) 99999-8888" c1Raws hok _ hmem

end PIIGuardian
